import Mathlib

/-!
Verification of the intent-classification pipeline of the bible-agent-bot
repository (`src/agents/planner_agent.py` and `src/agents/keyword_extractor.py`).

Strings are modelled as `List Char` over the ASCII fragment: `str.lower()` is
modelled by `Char.toLower` (ASCII case mapping), `str.strip()` trims the six
ASCII whitespace characters Python strips, and the regular expressions of the
source (which use only literals, character classes `[A-Za-z]` `\d` `\s`,
alternation of literals, optional groups and anchors) are modelled by
equivalent hand-written total matchers.
-/

namespace Bot

abbrev Str := List Char

def str (s : String) : Str := s.data

/-- Python `str.strip()` whitespace: space, tab, newline, carriage return,
vertical tab, form feed. -/
def isWSp (c : Char) : Bool :=
  c.toNat = 32 || c.toNat = 9 || c.toNat = 10 || c.toNat = 13 ||
  c.toNat = 11 || c.toNat = 12

/-- `[A-Za-z]` of the source regexes. -/
def isAZ (c : Char) : Bool :=
  (65 ≤ c.toNat && c.toNat ≤ 90) || (97 ≤ c.toNat && c.toNat ≤ 122)

/-- `\d` of the source regexes (ASCII digits). -/
def isDig (c : Char) : Bool :=
  48 ≤ c.toNat && c.toNat ≤ 57

/-- Python `str.lower()` on the ASCII fragment. -/
def lower (l : Str) : Str := l.map Char.toLower

/-- Python `str.strip()`: trim trailing whitespace, then leading whitespace. -/
def strip (l : Str) : Str :=
  ((l.reverse.dropWhile isWSp).reverse).dropWhile isWSp

/-- `message.lower().strip()`, the normalisation done by `analyze_intent`. -/
def normalize (l : Str) : Str := strip (lower l)

/-- Does `p` occur at the start of `s`? (Python `str.startswith`.) -/
def startB : Str → Str → Bool
  | [], _ => true
  | _ :: _, [] => false
  | c :: p, d :: s => c == d && startB p s

/-- Does `p` occur as a contiguous substring of `s`? (Python `p in s`.) -/
def hasStr (p : Str) : Str → Bool
  | [] => startB p []
  | c :: s => startB p (c :: s) || hasStr p s

/-- Greedy `+`-repetition of a character class: the maximal nonempty run of
characters satisfying `p`, with the remainder; `none` when the run is empty. -/
def span1 (p : Char → Bool) (l : Str) : Option (Str × Str) :=
  if (l.takeWhile p).isEmpty then none else some (l.takeWhile p, l.dropWhile p)

/-- The optional suffix `(?:-(\d+))?$` of the reference regexes. -/
def matchDash : Str → Option (Option Str)
  | [] => some none
  | c :: r =>
    if c = '-' then
      match span1 isDig r with
      | some (ve, rest) => if rest.isEmpty then some (some ve) else none
      | none => none
    else none

/-- The suffix `(?::(\d+))?(?:-(\d+))?$` of the reference regexes, returning
the two optional digit groups (verse start, verse end). -/
def matchTail : Str → Option (Option Str × Option Str)
  | [] => some (none, none)
  | c :: r =>
    if c = ':' then
      match span1 isDig r with
      | some (vs, rest) =>
        match matchDash rest with
        | some ve => some (some vs, ve)
        | none => none
      | none => none
    else if c = '-' then
      match span1 isDig r with
      | some (ve, rest) => if rest.isEmpty then some (none, some ve) else none
      | none => none
    else none

/-- `re.match(r'^([1-3])\s*([A-Za-z]+)\s+(\d+)(?::(\d+))?(?:-(\d+))?$', ·)`:
the numbered-book pattern of `_extract_verse_reference`. -/
def matchNumbered (mc : Str) : Option (Char × Str × Str × Option Str × Option Str) :=
  match mc with
  | [] => none
  | d :: rest =>
    if d == '1' || d == '2' || d == '3' then
      match span1 isAZ (rest.dropWhile isWSp) with
      | some (bname, r2) =>
        match span1 isWSp r2 with
        | some (_, r3) =>
          match span1 isDig r3 with
          | some (ch, r4) =>
            match matchTail r4 with
            | some (vs, ve) => some (d, bname, ch, vs, ve)
            | none => none
          | none => none
        | none => none
      | none => none
    else none

/-- `re.match(r'^(song\s+of\s+solomon)\s+(\d+)(?::(\d+))?(?:-(\d+))?$', ·,
re.IGNORECASE)`: the multi-word book pattern.  The returned book is the
original-case slice matched by group 1, as in the source. -/
def matchMulti (mc : Str) : Option (Str × Str × Option Str × Option Str) :=
  match span1 isAZ mc with
  | some (w1, r1) =>
    if lower w1 == str "song" then
      match span1 isWSp r1 with
      | some (s1, r2) =>
        match span1 isAZ r2 with
        | some (w2, r3) =>
          if lower w2 == str "of" then
            match span1 isWSp r3 with
            | some (s2, r4) =>
              match span1 isAZ r4 with
              | some (w3, r5) =>
                if lower w3 == str "solomon" then
                  match span1 isWSp r5 with
                  | some (_, r6) =>
                    match span1 isDig r6 with
                    | some (ch, r7) =>
                      match matchTail r7 with
                      | some (vs, ve) =>
                        some (w1 ++ s1 ++ w2 ++ s2 ++ w3, ch, vs, ve)
                      | none => none
                    | none => none
                  | none => none
                else none
              | none => none
            | none => none
          else none
        | none => none
      | none => none
    else none
  | none => none

/-- `re.match(r'^([A-Za-z]+)\s+(\d+)(?::(\d+))?(?:-(\d+))?$', ·)`: the
regular single-word book pattern. -/
def matchRegular (mc : Str) : Option (Str × Str × Option Str × Option Str) :=
  match span1 isAZ mc with
  | some (bname, r1) =>
    match span1 isWSp r1 with
    | some (_, r2) =>
      match span1 isDig r2 with
      | some (ch, r3) =>
        match matchTail r3 with
        | some (vs, ve) => some (bname, ch, vs, ve)
        | none => none
      | none => none
    | none => none
  | none => none

/-- `PlannerAgent.bible_books`: the book-name list used for validation. -/
def bibleBooks : List Str :=
  [str "genesis", str "exodus", str "leviticus", str "numbers", str "deuteronomy",
   str "joshua", str "judges", str "ruth", str "1 samuel", str "2 samuel",
   str "1 kings", str "2 kings", str "1 chronicles", str "2 chronicles",
   str "ezra", str "nehemiah", str "esther", str "job", str "psalms", str "psalm",
   str "proverbs", str "ecclesiastes", str "song of solomon", str "isaiah",
   str "jeremiah", str "lamentations", str "ezekiel", str "daniel", str "hosea",
   str "joel", str "amos", str "obadiah", str "jonah", str "micah", str "nahum",
   str "habakkuk", str "zephaniah", str "haggai", str "zechariah", str "malachi",
   str "matthew", str "mark", str "luke", str "john", str "acts", str "romans",
   str "1 corinthians", str "2 corinthians", str "galatians", str "ephesians",
   str "philippians", str "colossians", str "1 thessalonians", str "2 thessalonians",
   str "1 timothy", str "2 timothy", str "titus", str "philemon", str "hebrews",
   str "james", str "1 peter", str "2 peter", str "1 john", str "2 john", str "3 john",
   str "jude", str "revelation"]

/-- `PlannerAgent._is_valid_book`: exact match, space-collapsed match, or a
length-3+ prefix of a canonical book name. -/
def isValidBook (b : Str) : Bool :=
  let bl := strip (lower b)
  bibleBooks.any (fun bk =>
    bl == bk || bl == bk.filter (fun c => !(c == ' ')) ||
    (startB bl bk && 3 ≤ bl.length))

/-- The `":{verse_start}-{verse_end}"` suffix appended by
`_extract_verse_reference`: nothing without a verse start (a verse end alone
is dropped, since the source only appends it inside the verse-start branch). -/
def renderTail (vs ve : Option Str) : Str :=
  match vs with
  | none => []
  | some v => ':' :: v ++ (match ve with | none => [] | some e => '-' :: e)

/-- The `ref` string assembled by `_extract_verse_reference`:
`"{book} {chapter}"` plus `renderTail`. -/
def renderRef (book ch : Str) (vs ve : Option Str) : Str :=
  book ++ ' ' :: ch ++ renderTail vs ve

/-- The multi-word and regular pattern attempts of `_extract_verse_reference`,
tried after the numbered pattern (also reached when the numbered pattern
matched but its book failed validation). -/
def tryMultiRegular (mc : Str) : Option Str :=
  match matchMulti mc with
  | some (book, ch, vs, ve) => some (renderRef book ch vs ve)
  | none =>
    match matchRegular mc with
    | some (bname, ch, vs, ve) =>
      if isValidBook bname then some (renderRef bname ch vs ve) else none
    | none => none

/-- `PlannerAgent._extract_verse_reference`. -/
def extractVerseReference (m : Str) : Option Str :=
  let mc := strip m
  match matchNumbered mc with
  | some (d, bname, ch, vs, ve) =>
    if isValidBook (d :: ' ' :: bname) then
      some (renderRef (d :: ' ' :: bname) ch vs ve)
    else tryMultiRegular mc
  | none => tryMultiRegular mc

/-- `PlannerAgent.bible_topics`. -/
def bibleTopics : List Str :=
  [str "love", str "faith", str "hope", str "grace", str "peace", str "joy",
   str "wisdom", str "strength",
   str "forgiveness", str "mercy", str "salvation", str "prayer", str "healing",
   str "trust",
   str "patience", str "kindness", str "humility", str "courage", str "fear",
   str "anxiety",
   str "death", str "life", str "heaven", str "hell", str "sin", str "repentance",
   str "baptism",
   str "holy spirit", str "jesus", str "god", str "father", str "christ",
   str "lord", str "king",
   str "blessing", str "worship", str "praise", str "thanksgiving", str "obedience",
   str "righteousness", str "justice", str "truth", str "light", str "darkness",
   str "evil",
   str "temptation", str "devil", str "satan", str "angel", str "miracle",
   str "resurrection",
   str "eternal", str "glory", str "kingdom", str "gospel", str "commandment",
   str "covenant",
   str "prophet", str "apostle", str "disciple", str "church", str "marriage",
   str "family",
   str "children", str "money", str "wealth", str "poverty", str "work",
   str "rest", str "sabbath"]

/-- `PlannerAgent._is_bible_topic` (`message.strip().lower()`). -/
def isBibleTopic (message : Str) : Bool :=
  let mc := lower (strip message)
  bibleTopics.any (fun t => mc == t) ||
  bibleTopics.any (fun t => hasStr t mc && mc.length < 50)

/-- The intent trigger tables of `PlannerAgent.__init__`. -/
def dailyPhrases : List Str :=
  [str "read today", str "daily reading", str "next chapter",
   str "continue reading", str "today\x27s reading"]

def bookmarkResponseWords : List Str := [str "save ", str "bookmark "]

def progressPhrases : List Str :=
  [str "my progress", str "how far", str "what chapter am i", str "where am i"]

def searchTriggers : List Str :=
  [str "find", str "search", str "verses about", str "verse about",
   str "show me", str "scripture about", str "what does the bible say about",
   str "bible says about", str "look for", str "look up"]

def greetingPhrases : List Str :=
  [str "hello", str "hi", str "hey", str "good morning", str "good evening",
   str "good afternoon"]

def declineTriggers : List Str :=
  [str "no thanks", str "no", str "skip", str "not now"]

/-- The challenge word list of `analyze_intent`. -/
def challengeWords : List Str :=
  [str "struggle", str "struggling", str "anxious", str "anxiety", str "afraid",
   str "fear", str "worried", str "worry", str "sad", str "depressed",
   str "depression", str "angry", str "anger", str "lonely", str "loneliness",
   str "hopeless", str "desperate", str "hurt"]

/-- Python `message.split()` (split on whitespace runs, no empty tokens),
accumulator-based. -/
def pySplitAux (acc : Str) : Str → List Str
  | [] => if acc.isEmpty then [] else [acc.reverse]
  | c :: s =>
    if isWSp c then
      if acc.isEmpty then pySplitAux [] s else acc.reverse :: pySplitAux [] s
    else pySplitAux (c :: acc) s

def pySplit (s : Str) : List Str := pySplitAux [] s

/-- `PlannerAgent._looks_like_search`. -/
def looksLikeSearch (message : Str) : Bool :=
  let words := pySplit message
  (words.length ≤ 5 && 1 ≤ words.length) &&
  !(greetingPhrases.any (fun g => hasStr g message)) &&
  !([str "done", str "finished", str "completed", str "yes", str "no",
     str "ok", str "okay"].any (fun w => message == w))

/-- Python `s.split(sep, 1)` when `sep` occurs in `s`: the parts before and
after the first occurrence; `none` when `sep` does not occur. -/
def splitOnce (sep : Str) : Str → Option (Str × Str)
  | [] => if sep.isEmpty then some ([], []) else none
  | c :: s =>
    if startB sep (c :: s) then some ([], (c :: s).drop sep.length)
    else
      match splitOnce sep s with
      | some (a, b) => some (c :: a, b)
      | none => none

/-- Python `s.split(',')`. -/
def splitComma : Str → List Str
  | [] => [[]]
  | c :: s =>
    if c == ',' then [] :: splitComma s
    else
      match splitComma s with
      | a :: rest => (c :: a) :: rest
      | [] => [[c]]

/-- Capture of `\s+(.+)` after a matched literal: maximal whitespace run, then
the (greedy, to end of line) nonempty capture group. -/
def capAfter (rem : Str) : Option Str :=
  match span1 isWSp rem with
  | some (_, r) =>
    let g := r.takeWhile (fun c => !(c == '\n'))
    if g.isEmpty then none else some g
  | none => none

/-- Attempt one of the pattern's literal alternatives at the current position
(the alternatives start with pairwise distinct text, so at most one applies). -/
def tryAt (alts : List Str) (s : Str) : Option Str :=
  match alts.find? (fun a => startB a s) with
  | some a => capAfter (s.drop a.length)
  | none => none

/-- `re.search` of `lit\s+(.+)`: scan positions left to right. -/
def searchCap (alts : List Str) : Str → Option Str
  | [] => none
  | c :: s =>
    match tryAt alts (c :: s) with
    | some g => some g
    | none => searchCap alts s

/-- The twelve capture patterns of `_extract_topic`, in source order; `s?` and
`(?:about|on|for)` alternations are expanded into literal alternatives. -/
def topicPatterns : List (List Str) :=
  [[str "what does the bible say about"],
   [str "bible says about"],
   [str "scripture about"],
   [str "verses about", str "verse about"],
   [str "find verses about", str "find verses on", str "find verses for",
    str "find verse about", str "find verse on", str "find verse for"],
   [str "find"],
   [str "search for"],
   [str "search"],
   [str "show me verses about", str "show me verses on", str "show me verses for",
    str "show me verse about", str "show me verse on", str "show me verse for"],
   [str "show me"],
   [str "look for"],
   [str "look up"]]

def tryTopicPatterns : List (List Str) → Str → Option Str
  | [], _ => none
  | alts :: ps, s =>
    match searchCap alts s with
    | some g => some g
    | none => tryTopicPatterns ps s

/-- Python `s.replace(p :: ps, '')` (all occurrences, left to right),
written with a structural fuel argument (one unit per consumed character, so
`s.length` fuel always suffices). -/
def replaceAll (p : Char) (ps : Str) : Nat → Str → Str
  | 0, s => s
  | _ + 1, [] => []
  | fuel + 1, c :: t =>
    if startB (p :: ps) (c :: t) then replaceAll p ps fuel (t.drop ps.length)
    else c :: replaceAll p ps fuel t

/-- Python `s.replace(pat, '')` for the nonempty literal triggers. -/
def replaceStr (pat s : Str) : Str :=
  match pat with
  | [] => s
  | p :: ps => replaceAll p ps s.length s

/-- `sorted(triggers, key=len, reverse=True)` of `_extract_topic` (stable sort
by decreasing length applied to the source's trigger list). -/
def triggersSorted : List Str :=
  [str "what does the bible say about", str "scripture about",
   str "verses about", str "verse about", str "look for", str "show me",
   str "look up", str "search", str "find"]

def endsB (w t : Str) : Bool := startB w.reverse t.reverse

def dropTrailWS (t : Str) : Str := (t.reverse.dropWhile isWSp).reverse

/-- `re.sub(r'\s+(w1|w2|...)$', '', ·)` for alternatives that start with
pairwise distinct letters: if the text ends with an alternative preceded by
whitespace, remove the alternative and the whitespace run before it. -/
def subTrailingAlt (alts : List Str) (t : Str) : Str :=
  match alts.find? (fun w =>
    endsB w t &&
    (match (t.take (t.length - w.length)).reverse with
     | [] => false
     | c :: _ => isWSp c)) with
  | some w => dropTrailWS (t.take (t.length - w.length))
  | none => t

def politeWords : List Str :=
  [str "please", str "thanks", str "thank you", str "in the bible"]

/-- `re.sub(r'^(about|for|on)\s+', '', ·)`. -/
def subLeadingWord (t : Str) : Str :=
  match [str "about", str "for", str "on"].find? (fun w => startB w t) with
  | some w =>
    match span1 isWSp (t.drop w.length) with
    | some (_, rest) => rest
    | none => t
  | none => t

/-- The trigger-stripping residual of `_extract_topic`: delete every trigger
substring (longest first), strip, trim a leading and a trailing preposition. -/
def topicResidual (ml : Str) : Str :=
  subTrailingAlt [str "about", str "for", str "on"]
    (subLeadingWord
      (strip (triggersSorted.foldl (fun r trig => replaceStr trig r) ml)))

/-- `PlannerAgent._extract_topic`. -/
def extractTopic (message : Str) : Str :=
  let ml := normalize message
  match tryTopicPatterns topicPatterns ml with
  | some g => subTrailingAlt politeWords (strip g)
  | none => if (topicResidual ml).isEmpty then ml else topicResidual ml

/-- The intent values produced by `PlannerAgent.analyze_intent`, with their
`data` payloads. -/
inductive Intent where
  | bookmark_no
  | bookmark_all (references : List Str)
  | get_verse (reference : Str)
  | greeting
  | complete
  | bookmark (reference : Str)
  | progress
  | daily_reading
  | search (topic : Str)
  | challenge (emotions : List Str) (message : Str)
  | general (message : Str)
  deriving DecidableEq

/-- `analyze_intent` from the progress check onwards (reached by falling
through the bookmark check). -/
def afterBookmark (m ml : Str) : Intent :=
  if progressPhrases.any (fun p => hasStr p ml) then .progress
  else if dailyPhrases.any (fun p => hasStr p ml) then .daily_reading
  else if searchTriggers.any (fun t => hasStr t ml) then .search (extractTopic ml)
  else
    let emotions := challengeWords.filter (fun w => hasStr w ml)
    if !emotions.isEmpty then .challenge emotions m
    else if isBibleTopic ml then .search ml
    else if looksLikeSearch ml then .search ml
    else .general m

/-- `analyze_intent` from the verse-reference check onwards. -/
def analyzeRest (m ml : Str) : Intent :=
  match extractVerseReference m with
  | some r => .get_verse r
  | none =>
    if greetingPhrases.any (fun g => ml == g || startB (g ++ [' ']) ml) then
      .greeting
    else if ml == str "done" || ml == str "finished" || ml == str "completed" then
      .complete
    else if bookmarkResponseWords.any (fun w => hasStr w ml) then
      match extractVerseReference m with
      | some r => .bookmark r
      | none => afterBookmark m ml
    else afterBookmark m ml

/-- `PlannerAgent.analyze_intent`.  Note that the `save all:` presence test is
on the lowercased message while the split is on the original message, and that
a failed split falls through, exactly as in the source. -/
def analyzeIntent (m : Str) : Intent :=
  let ml := normalize m
  if declineTriggers.any (fun p => hasStr p ml) then .bookmark_no
  else if hasStr (str "save all:") ml then
    match splitOnce (str "save all:") m with
    | some (_, rest) => .bookmark_all ((splitComma rest).map strip)
    | none => analyzeRest m ml
  else analyzeRest m ml

/-- `KeywordExtractor.phrase_patterns`: each source regex is an alternation of
literals (with `\x27?` optional apostrophes expanded into both variants),
tested with `re.search`, i.e. substring containment of some alternative. -/
def phrasePatterns : List (List Str × List Str) :=
  [([str "heart is heavy", str "heavy heart", str "feeling down", str "feeling low",
     str "feeling blue"], [str "sadness", str "comfort", str "sorrow"]),
   ([str "can\x27t sleep", str "cant sleep", str "trouble sleeping", str "sleepless",
     str "insomnia"], [str "peace", str "rest", str "anxiety"]),
   ([str "feeling empty", str "feel empty", str "emptiness"],
    [str "purpose", str "fulfillment", str "joy"]),
   ([str "burned out", str "burn out", str "exhausted", str "worn out"],
    [str "rest", str "strength", str "peace"]),
   ([str "overwhelmed", str "too much", str "can\x27t cope", str "cant cope",
     str "can\x27t handle", str "cant handle"], [str "peace", str "strength", str "help"]),
   ([str "stressed", str "stress", str "stressful"],
    [str "peace", str "rest", str "anxiety", str "trust"]),
   ([str "panic", str "panicking", str "panic attack"],
    [str "peace", str "fear", str "comfort"]),
   ([str "crying", str "can\x27t stop crying", str "cant stop crying", str "tears"],
    [str "comfort", str "sadness", str "hope"]),
   ([str "numb", str "feel nothing", str "emotionless"],
    [str "hope", str "comfort", str "healing"]),
   ([str "angry at god", str "mad at god", str "why god"],
    [str "faith", str "trust", str "suffering"]),
   ([str "feel like giving up", str "want to quit", str "give up"],
    [str "perseverance", str "hope", str "strength"]),
   ([str "feel worthless", str "not good enough", str "inadequate"],
    [str "identity", str "love", str "worth", str "grace"]),
   ([str "feel unloved", str "nobody loves me", str "unlovable"],
    [str "love", str "acceptance", str "grace"]),
   ([str "feel rejected", str "rejection", str "rejected"],
    [str "acceptance", str "love", str "comfort"]),
   ([str "feel abandoned", str "abandoned"],
    [str "presence", str "comfort", str "faithfulness"]),
   ([str "marriage problems", str "marriage trouble", str "spouse", str "husband",
     str "wife"], [str "marriage", str "love", str "patience", str "forgiveness"]),
   ([str "divorce", str "getting divorced", str "separated"],
    [str "marriage", str "comfort", str "guidance", str "healing"]),
   ([str "boyfriend", str "girlfriend", str "dating", str "relationship"],
    [str "love", str "wisdom", str "purity", str "patience"]),
   ([str "broke up", str "breakup", str "break up", str "broken heart"],
    [str "comfort", str "healing", str "hope"]),
   ([str "cheated", str "cheating", str "affair", str "unfaithful"],
    [str "forgiveness", str "healing", str "trust"]),
   ([str "fight with", str "argument", str "arguing", str "disagreement"],
    [str "peace", str "patience", str "forgiveness"]),
   ([str "don\x27t trust", str "dont trust", str "can\x27t trust", str "cant trust",
     str "trust issues"], [str "trust", str "healing", str "faith"]),
   ([str "family problems", str "family issues", str "parents", str "siblings"],
    [str "family", str "love", str "patience", str "forgiveness"]),
   ([str "lonely", str "loneliness", str "no friends", str "alone"],
    [str "loneliness", str "comfort", str "presence"]),
   ([str "friend betrayed", str "betrayal", str "betrayed"],
    [str "forgiveness", str "trust", str "healing"]),
   ([str "lost my job", str "fired", str "laid off", str "unemployed"],
    [str "provision", str "trust", str "faith", str "hope"]),
   ([str "need a job", str "looking for work", str "job search"],
    [str "provision", str "guidance", str "patience"]),
   ([str "hate my job", str "miserable at work", str "bad job"],
    [str "contentment", str "patience", str "guidance"]),
   ([str "difficult boss", str "boss problems", str "coworker"],
    [str "patience", str "wisdom", str "peace"]),
   ([str "money problems", str "financial", str "debt", str "bills", str "broke"],
    [str "provision", str "trust", str "contentment"]),
   ([str "can\x27t pay", str "cant pay", str "can\x27t afford", str "cant afford"],
    [str "provision", str "trust", str "faith"]),
   ([str "poor", str "poverty", str "struggling financially"],
    [str "provision", str "hope", str "contentment"]),
   ([str "sick", str "illness", str "disease", str "unwell", str "health problems"],
    [str "healing", str "faith", str "comfort", str "hope"]),
   ([str "cancer", str "terminal", str "dying"],
    [str "healing", str "hope", str "comfort", str "eternal"]),
   ([str "chronic pain", str "pain", str "suffering physically"],
    [str "healing", str "comfort", str "strength"]),
   ([str "mental health", str "depression", str "bipolar"],
    [str "healing", str "hope", str "peace", str "comfort"]),
   ([str "addiction", str "addicted", str "alcoholic", str "drugs"],
    [str "freedom", str "deliverance", str "strength", str "healing"]),
   ([str "suicidal", str "suicide", str "end my life", str "don\x27t want to live",
     str "dont want to live"],
    [str "hope", str "life", str "love", str "help", str "purpose"]),
   ([str "pregnant", str "pregnancy", str "expecting"],
    [str "blessing", str "children", str "provision", str "trust"]),
   ([str "miscarriage", str "lost the baby", str "stillborn"],
    [str "comfort", str "grief", str "hope", str "healing"]),
   ([str "someone died", str "death of", str "passed away", str "lost someone"],
    [str "death", str "comfort", str "hope", str "resurrection"]),
   ([str "grieving", str "grief", str "mourning"],
    [str "comfort", str "grief", str "hope"]),
   ([str "funeral", str "memorial"],
    [str "comfort", str "hope", str "resurrection", str "eternal"]),
   ([str "miss them", str "missing someone", str "wish they were here"],
    [str "comfort", str "hope"]),
   ([str "widow", str "widower", str "lost my spouse"],
    [str "comfort", str "provision", str "hope"]),
   ([str "lost my parent", str "mom died", str "dad died", str "parent passed"],
    [str "comfort", str "grief", str "hope"]),
   ([str "lost my child", str "child died"],
    [str "comfort", str "grief", str "hope", str "healing"]),
   ([str "don\x27t feel god", str "dont feel god", str "god is silent",
     str "where is god"], [str "faith", str "presence", str "trust", str "waiting"]),
   ([str "losing faith", str "lost my faith", str "doubt god"],
    [str "faith", str "doubt", str "trust"]),
   ([str "how to pray", str "teach me to pray", str "prayer life"], [str "prayer"]),
   ([str "how to hear god", str "god\x27s voice", str "gods voice"],
    [str "guidance", str "prayer"]),
   ([str "backsliding", str "fell away", str "returned to sin"],
    [str "repentance", str "grace", str "forgiveness", str "restoration"]),
   ([str "tempted", str "temptation", str "struggling with sin"],
    [str "temptation", str "strength", str "victory", str "purity"]),
   ([str "how to be saved", str "become christian", str "accept jesus"],
    [str "salvation", str "faith", str "eternal"]),
   ([str "church hurt", str "hurt by church", str "church problems"],
    [str "forgiveness", str "healing", str "fellowship"]),
   ([str "don\x27t know what to do", str "dont know what to do", str "confused",
     str "uncertain"], [str "guidance", str "wisdom", str "direction"]),
   ([str "big decision", str "major decision", str "life decision"],
    [str "guidance", str "wisdom", str "trust"]),
   ([str "god\x27s will", str "gods will", str "what should i do", str "which path"],
    [str "guidance", str "wisdom", str "direction"]),
   ([str "moving", str "relocating", str "new city"],
    [str "guidance", str "trust", str "provision"]),
   ([str "new job offer", str "career change"],
    [str "guidance", str "wisdom", str "provision"]),
   ([str "getting married", str "engaged", str "wedding"],
    [str "marriage", str "love", str "blessing", str "wisdom"]),
   ([str "having a baby", str "starting family", str "first child"],
    [str "children", str "blessing", str "family", str "trust"]),
   ([str "afraid of death", str "fear of dying", str "scared to die"],
    [str "death", str "eternal", str "hope", str "fear"]),
   ([str "afraid of future", str "worried about tomorrow"],
    [str "future", str "trust", str "anxiety", str "provision"]),
   ([str "fear of failure", str "afraid to fail"],
    [str "courage", str "fear", str "faith", str "strength"]),
   ([str "worried about children", str "fear for my kids"],
    [str "protection", str "trust", str "prayer", str "family"]),
   ([str "failed", str "failure", str "messed up", str "made mistake"],
    [str "grace", str "forgiveness", str "hope", str "restoration"]),
   ([str "jealous of", str "envy", str "others have more"],
    [str "contentment", str "jealousy", str "gratitude"]),
   ([str "ashamed", str "shame", str "embarrassed"],
    [str "grace", str "forgiveness", str "acceptance"]),
   ([str "need help", str "help me", str "i need"],
    [str "help", str "strength", str "provision"]),
   ([str "need peace", str "want peace"], [str "peace"]),
   ([str "need strength", str "give me strength"], [str "strength"]),
   ([str "need hope", str "give me hope"], [str "hope"]),
   ([str "need wisdom", str "need advice"], [str "wisdom", str "guidance"]),
   ([str "need courage", str "need bravery"],
    [str "courage", str "fear", str "strength"]),
   ([str "need patience", str "be patient"], [str "patience"]),
   ([str "need love", str "feel loved"], [str "love"]),
   ([str "need comfort", str "need comforting"], [str "comfort"]),
   ([str "need healing", str "heal me"], [str "healing"]),
   ([str "thank god", str "grateful", str "thankful", str "blessed"],
    [str "thanksgiving", str "gratitude", str "praise"])]

/-- `KeywordExtractor.word_synonyms`. -/
def wordSynonyms : List (Str × List Str) :=
  [(str "scared", [str "fear", str "afraid", str "courage"]),
   (str "afraid", [str "fear", str "courage"]),
   (str "worried", [str "anxiety", str "worry", str "trust"]),
   (str "anxious", [str "anxiety", str "peace"]),
   (str "happy", [str "joy"]),
   (str "sad", [str "sadness", str "sorrow", str "comfort"]),
   (str "depressed", [str "sadness", str "despair", str "hope"]),
   (str "angry", [str "anger", str "patience"]),
   (str "mad", [str "anger"]),
   (str "frustrated", [str "patience", str "peace"]),
   (str "peaceful", [str "peace"]),
   (str "loving", [str "love"]),
   (str "hopeful", [str "hope"]),
   (str "hopeless", [str "hope", str "despair"]),
   (str "forgiving", [str "forgiveness"]),
   (str "merciful", [str "mercy"]),
   (str "wise", [str "wisdom"]),
   (str "strong", [str "strength"]),
   (str "weak", [str "strength", str "weakness"]),
   (str "patient", [str "patience"]),
   (str "humble", [str "humility"]),
   (str "proud", [str "pride", str "humility"]),
   (str "jealous", [str "jealousy", str "envy", str "contentment"]),
   (str "grateful", [str "thanksgiving", str "gratitude"]),
   (str "thankful", [str "thanksgiving", str "gratitude"]),
   (str "lonely", [str "loneliness", str "comfort"]),
   (str "alone", [str "loneliness", str "presence"]),
   (str "lost", [str "guidance", str "direction"]),
   (str "confused", [str "wisdom", str "guidance"]),
   (str "hurt", [str "healing", str "comfort"]),
   (str "sick", [str "healing"]),
   (str "dying", [str "death", str "life", str "hope"]),
   (str "grieving", [str "grief", str "comfort"]),
   (str "mourning", [str "comfort", str "grief"]),
   (str "money", [str "provision", str "wealth", str "contentment"]),
   (str "poor", [str "provision", str "poverty", str "contentment"]),
   (str "job", [str "work", str "provision"]),
   (str "marriage", [str "marriage", str "love"]),
   (str "divorced", [str "divorce", str "healing"]),
   (str "children", [str "children", str "family"]),
   (str "family", [str "family", str "love"]),
   (str "friend", [str "friendship"]),
   (str "enemy", [str "enemies", str "forgiveness"]),
   (str "sin", [str "forgiveness", str "repentance", str "grace"]),
   (str "sinned", [str "forgiveness", str "repentance"]),
   (str "tempted", [str "temptation", str "strength"]),
   (str "pray", [str "prayer"]),
   (str "worship", [str "worship", str "praise"]),
   (str "believe", [str "faith", str "belief"]),
   (str "trust", [str "trust", str "faith"]),
   (str "doubting", [str "doubt", str "faith"]),
   (str "saved", [str "salvation"]),
   (str "heaven", [str "heaven", str "eternal"]),
   (str "jesus", [str "jesus", str "christ", str "savior"]),
   (str "forgive", [str "forgiveness"]),
   (str "heal", [str "healing"]),
   (str "restore", [str "restoration", str "healing"]),
   (str "guide", [str "guidance"]),
   (str "protect", [str "protection"]),
   (str "comfort", [str "comfort"])]

/-- `KeywordExtractor.stop_words`. -/
def stopWords : List Str :=
  [str "a", str "an", str "the", str "is", str "are", str "was", str "were",
   str "be", str "been", str "being",
   str "have", str "has", str "had", str "do", str "does", str "did", str "will",
   str "would", str "could",
   str "should", str "may", str "might", str "must", str "shall", str "can",
   str "need", str "dare",
   str "ought", str "used", str "to", str "of", str "in", str "for", str "on",
   str "with", str "at", str "by",
   str "from", str "as", str "into", str "through", str "during", str "before",
   str "after",
   str "above", str "below", str "between", str "under", str "again",
   str "further", str "then",
   str "once", str "here", str "there", str "when", str "where", str "why",
   str "how", str "all",
   str "each", str "few", str "more", str "most", str "other", str "some",
   str "such", str "no", str "nor",
   str "not", str "only", str "own", str "same", str "so", str "than",
   str "too", str "very", str "just",
   str "and", str "but", str "if", str "or", str "because", str "until",
   str "while", str "about",
   str "what", str "which", str "who", str "whom", str "this", str "that",
   str "these", str "those",
   str "am", str "i", str "me", str "my", str "myself", str "we", str "our",
   str "ours", str "ourselves",
   str "you", str "your", str "yours", str "yourself", str "yourselves",
   str "he", str "him", str "his",
   str "himself", str "she", str "her", str "hers", str "herself", str "it",
   str "its", str "itself",
   str "they", str "them", str "their", str "theirs", str "themselves",
   str "tell", str "say",
   str "says", str "said", str "bible", str "verse", str "verses",
   str "scripture", str "scriptures",
   str "find", str "show", str "give", str "get", str "want", str "know",
   str "think", str "please",
   str "thanks", str "thank", str "something", str "anything", str "everything",
   str "really", str "like", str "going", str "today", str "now", str "always",
   str "never"]

/-- Python `\w` word characters (ASCII fragment). -/
def wordChar (c : Char) : Bool :=
  (97 ≤ c.toNat && c.toNat ≤ 122) || (65 ≤ c.toNat && c.toNat ≤ 90) ||
  (48 ≤ c.toNat && c.toNat ≤ 57) || c.toNat = 95

/-- Lowercase ASCII letter, the `[a-z]` class. -/
def isLoAZ (c : Char) : Bool := 97 ≤ c.toNat && c.toNat ≤ 122

/-- Maximal runs of word characters, accumulator-based. -/
def wordRunsAux (acc : Str) : Str → List Str
  | [] => if acc.isEmpty then [] else [acc.reverse]
  | c :: s =>
    if wordChar c then wordRunsAux (c :: acc) s
    else if acc.isEmpty then wordRunsAux [] s
    else acc.reverse :: wordRunsAux [] s

/-- `re.findall(r'\b[a-z]+\b', ·)`: a match must span a full maximal run of
word characters (the `\b` anchors), and `[a-z]+` must cover it entirely, so
the matches are exactly the maximal word-character runs that consist of
lowercase letters only. -/
def findWords (s : Str) : List Str :=
  (wordRunsAux [] s).filter (fun r => r.all isLoAZ)

/-- Insertion into the keyword set (Python `set.add`), modelled as a
duplicate-free list in first-insertion order. -/
def insertNew (ks : List Str) (w : Str) : List Str :=
  if ks.contains w then ks else ks ++ [w]

/-- Python `set.update` with a list of tags. -/
def insertAll (ks : List Str) (ws : List Str) : List Str := ws.foldl insertNew ks

/-- The per-token step of `KeywordExtractor.extract`: skip stop words and
short words, otherwise add the word and its synonym expansion. -/
def kwStep (ks : List Str) (w : Str) : List Str :=
  if stopWords.contains w || w.length < 3 then ks
  else
    match wordSynonyms.find? (fun pr => pr.1 == w) with
    | some pr => insertAll (insertNew ks w) pr.2
    | none => insertNew ks w

/-- Steps 1 and 2 of `KeywordExtractor.extract`: phrase-pattern tags, then
word/synonym expansion over the tokens of the normalized text. -/
def kwStage12 (tl : Str) : List Str :=
  let ks := phrasePatterns.foldl
    (fun ks pr => if pr.1.any (fun a => hasStr a tl) then insertAll ks pr.2 else ks) []
  (findWords tl).foldl kwStep ks

/-- `KeywordExtractor.extract`: phrase patterns, then word/synonym expansion,
then the two fallback stages. -/
def extract (text : Str) : List Str :=
  let tl := normalize text
  let ks := kwStage12 tl
  let ks :=
    if ks.isEmpty then
      ((findWords tl).filter (fun w => !stopWords.contains w && 2 < w.length)).foldl
        insertNew []
    else ks
  if ks.isEmpty then [tl] else ks

/-! ### Character-class and list lemmas -/

lemma isAZ_not_wsp {c : Char} (h : isAZ c = true) : isWSp c = false := by
  simp only [isAZ, Bool.or_eq_true, Bool.and_eq_true, decide_eq_true_eq] at h
  simp only [isWSp, Bool.or_eq_false_iff, decide_eq_false_iff_not]
  omega

lemma isDig_not_wsp {c : Char} (h : isDig c = true) : isWSp c = false := by
  simp only [isDig, Bool.and_eq_true, decide_eq_true_eq] at h
  simp only [isWSp, Bool.or_eq_false_iff, decide_eq_false_iff_not]
  omega

lemma isDig_not_az {c : Char} (h : isDig c = true) : isAZ c = false := by
  simp only [isDig, Bool.and_eq_true, decide_eq_true_eq] at h
  simp only [isAZ, Bool.or_eq_false_iff, Bool.and_eq_false_iff,
    decide_eq_false_iff_not]
  omega

lemma isAZ_not_dig {c : Char} (h : isAZ c = true) : isDig c = false := by
  simp only [isAZ, Bool.or_eq_true, Bool.and_eq_true, decide_eq_true_eq] at h
  simp only [isDig, Bool.and_eq_false_iff, decide_eq_false_iff_not]
  omega

lemma isAZ_not_123 {c : Char} (h : isAZ c = true) :
    (c == '1' || c == '2' || c == '3') = false := by
  simp only [isAZ, Bool.or_eq_true, Bool.and_eq_true, decide_eq_true_eq] at h
  simp only [Bool.or_eq_false_iff, beq_eq_false_iff_ne, ne_eq]
  refine ⟨⟨?_, ?_⟩, ?_⟩ <;> rintro rfl <;> simp_all

lemma takeWhile_eq_nil_of_head {p : Char → Bool} {r : Str}
    (h : ∀ c, r.head? = some c → p c = false) : r.takeWhile p = [] := by
  cases r with
  | nil => rfl
  | cons c cs => simp [List.takeWhile_cons, h c rfl]

lemma dropWhile_eq_self_of_head {p : Char → Bool} {r : Str}
    (h : ∀ c, r.head? = some c → p c = false) : r.dropWhile p = r := by
  cases r with
  | nil => rfl
  | cons c cs => simp [List.dropWhile_cons, h c rfl]

lemma head?_dropWhile {p : Char → Bool} {l : Str} {c : Char}
    (h : (l.dropWhile p).head? = some c) : p c = false := by
  induction l with
  | nil => simp at h
  | cons a l ih =>
    rw [List.dropWhile_cons] at h
    cases hpa : p a
    · rw [hpa] at h
      simp only [Bool.false_eq_true, if_false, List.head?_cons,
        Option.some.injEq] at h
      subst h; exact hpa
    · rw [hpa] at h
      simp only [if_true] at h
      exact ih h

/-- Running `span1` on a decomposed input: a nonempty run of `p`-characters
followed by a remainder whose head fails `p` is split exactly there. -/
lemma span1_app {p : Char → Bool} {t r : Str} (h1 : t ≠ [])
    (h2 : ∀ c ∈ t, p c = true)
    (h3 : ∀ c, r.head? = some c → p c = false) :
    span1 p (t ++ r) = some (t, r) := by
  have htake : (t ++ r).takeWhile p = t := by
    rw [List.takeWhile_append_of_pos (by intro a ha; exact h2 a ha),
      takeWhile_eq_nil_of_head h3, List.append_nil]
  have hdrop : (t ++ r).dropWhile p = r := by
    rw [List.dropWhile_append_of_pos (by intro a ha; exact h2 a ha),
      dropWhile_eq_self_of_head h3]
  simp [span1, htake, hdrop, h1]

lemma span1_inv {p : Char → Bool} {l t r : Str}
    (h : span1 p l = some (t, r)) :
    t ++ r = l ∧ t ≠ [] ∧ (∀ c ∈ t, p c = true) ∧
      (∀ c, r.head? = some c → p c = false) := by
  unfold span1 at h
  split at h
  · exact absurd h (by simp)
  · rename_i hne
    injection h with h
    injection h with h1 h2
    subst h1; subst h2
    refine ⟨List.takeWhile_append_dropWhile p l, by simpa using hne,
      fun c hc => List.mem_takeWhile_imp hc, fun c hc => head?_dropWhile hc⟩

lemma strip_eq_self {l : Str}
    (hh : ∀ c, l.head? = some c → isWSp c = false)
    (hl : ∀ c, l.getLast? = some c → isWSp c = false) : strip l = l := by
  unfold strip
  rw [dropWhile_eq_self_of_head (p := isWSp) (r := l.reverse) (by
    intro c hc
    exact hl c (by rwa [List.head?_reverse] at hc)),
    List.reverse_reverse]
  exact dropWhile_eq_self_of_head hh

/-! ### Round-trip lemmas for the reference grammar -/

/-- A present optional group is a nonempty digit string. -/
def DigOpt (o : Option Str) : Prop :=
  ∀ s, o = some s → s ≠ [] ∧ ∀ c ∈ s, isDig c = true

lemma getLast?_mem {l : Str} {c : Char} (h : l.getLast? = some c) : c ∈ l := by
  induction l with
  | nil => simp at h
  | cons a l ih =>
    cases l with
    | nil => simp_all
    | cons b t =>
      rw [List.getLast?_cons_cons] at h
      exact List.mem_cons_of_mem a (ih h)

lemma span1_dig_self {v : Str} (h1 : v ≠ []) (h2 : ∀ c ∈ v, isDig c = true) :
    span1 isDig v = some (v, []) := by
  have := span1_app (p := isDig) (t := v) (r := []) h1 h2 (by simp)
  simpa using this

/-- The verse-end group that survives re-parsing: dropped when there was no
verse start (the renderer never emits it in that case). -/
def veAdj (vs ve : Option Str) : Option Str :=
  match vs with
  | none => none
  | some _ => ve

lemma matchDash_render {ve : Option Str} (h : DigOpt ve) :
    matchDash (match ve with | none => [] | some e => '-' :: e) = some ve := by
  cases ve with
  | none => rfl
  | some e =>
    obtain ⟨he1, he2⟩ := h e rfl
    simp only [matchDash, if_pos rfl, span1_dig_self he1 he2, List.isEmpty_nil,
      if_true]

lemma matchTail_render {vs ve : Option Str} (hvs : DigOpt vs) (hve : DigOpt ve) :
    matchTail (renderTail vs ve) = some (vs, veAdj vs ve) := by
  cases vs with
  | none => rfl
  | some v =>
    obtain ⟨hv1, hv2⟩ := hvs v rfl
    cases ve with
    | none =>
      have hspan : span1 isDig (v ++ []) = some (v, []) :=
        span1_app hv1 hv2 (by simp)
      rw [List.append_nil] at hspan
      show matchTail (':' :: (v ++ [])) = some (some v, none)
      rw [List.append_nil]
      simp only [matchTail, if_pos rfl, hspan, matchDash]
      simp
    | some e =>
      have hspan : span1 isDig (v ++ '-' :: e) = some (v, '-' :: e) := by
        refine span1_app hv1 hv2 ?_
        intro c hc
        simp only [List.head?_cons, Option.some.injEq] at hc
        subst hc; decide
      show matchTail (':' :: (v ++ '-' :: e)) = some (some v, some e)
      simp only [matchTail, if_pos rfl, hspan]
      have hmd : matchDash ('-' :: e) = some (some e) :=
        matchDash_render hve
      simp only [hmd]
      simp

lemma renderTail_veAdj (vs ve : Option Str) :
    renderTail vs (veAdj vs ve) = renderTail vs ve := by
  cases vs <;> rfl

lemma matchDash_inv {t : Str} {ve : Option Str} (h : matchDash t = some ve) :
    DigOpt ve := by
  cases t with
  | nil =>
    simp only [matchDash, Option.some.injEq] at h
    subst h; intro s hs; simp at hs
  | cons c r =>
    simp only [matchDash] at h
    split at h
    · split at h
      · rename_i ve0 rest heq
        obtain ⟨-, h2, h3, -⟩ := span1_inv heq
        split at h
        · injection h with h; subst h
          intro s hs; injection hs with hs; subst hs; exact ⟨h2, h3⟩
        · simp at h
      · simp at h
    · simp at h

lemma matchTail_inv {t : Str} {vs ve : Option Str}
    (h : matchTail t = some (vs, ve)) : DigOpt vs ∧ DigOpt ve := by
  cases t with
  | nil =>
    simp only [matchTail, Option.some.injEq, Prod.mk.injEq] at h
    obtain ⟨h1, h2⟩ := h; subst h1; subst h2
    exact ⟨fun s hs => by simp at hs, fun s hs => by simp at hs⟩
  | cons c r =>
    simp only [matchTail] at h
    split at h
    · split at h
      · rename_i vs0 rest heq
        obtain ⟨-, h2, h3, -⟩ := span1_inv heq
        split at h
        · rename_i ve0 heq2
          injection h with h
          injection h with ha hb
          subst ha; subst hb
          exact ⟨fun s hs => by injection hs with hs; subst hs; exact ⟨h2, h3⟩,
            matchDash_inv heq2⟩
        · simp at h
      · simp at h
    · split at h
      · split at h
        · rename_i ve0 rest heq
          obtain ⟨-, h2, h3, -⟩ := span1_inv heq
          split at h
          · injection h with h
            injection h with ha hb
            subst ha; subst hb
            exact ⟨fun s hs => by simp at hs,
              fun s hs => by injection hs with hs; subst hs; exact ⟨h2, h3⟩⟩
          · simp at h
        · simp at h
      · simp at h

lemma d123_not_wsp {d : Char} (hd : (d == '1' || d == '2' || d == '3') = true) :
    isWSp d = false := by
  simp only [Bool.or_eq_true, beq_iff_eq] at hd
  rcases hd with (rfl | rfl) | rfl <;> decide

lemma d123_not_az {d : Char} (hd : (d == '1' || d == '2' || d == '3') = true) :
    isAZ d = false := by
  simp only [Bool.or_eq_true, beq_iff_eq] at hd
  rcases hd with (rfl | rfl) | rfl <;> decide

lemma renderTail_head_colon {vs ve : Option Str} {c : Char}
    (h : (renderTail vs ve).head? = some c) : c = ':' := by
  cases vs with
  | none => simp [renderTail] at h
  | some v =>
    simp only [renderTail, List.cons_append, List.head?_cons,
      Option.some.injEq] at h
    exact h.symm

lemma exists_getLast {v : Str} (h1 : v ≠ []) : ∃ c, v.getLast? = some c := by
  induction v with
  | nil => exact absurd rfl h1
  | cons a t ih =>
    cases t with
    | nil => exact ⟨a, rfl⟩
    | cons b t' =>
      obtain ⟨c, hc⟩ := ih (by simp)
      exact ⟨c, by rwa [List.getLast?_cons_cons]⟩

/-- The last character of `ch ++ renderTail vs ve` is a digit. -/
lemma body_getLast_dig {ch : Str} {vs ve : Option Str}
    (hc1 : ch ≠ []) (hc2 : ∀ c ∈ ch, isDig c = true)
    (hvs : DigOpt vs) (hve : DigOpt ve) :
    ∃ c, (ch ++ renderTail vs ve).getLast? = some c ∧ isDig c = true := by
  cases vs with
  | none =>
    obtain ⟨c, hc⟩ := exists_getLast hc1
    refine ⟨c, ?_, hc2 c (getLast?_mem hc)⟩
    simp only [renderTail, List.append_nil, hc]
  | some v =>
    obtain ⟨hv1, hv2⟩ := hvs v rfl
    cases ve with
    | none =>
      obtain ⟨c, hc⟩ := exists_getLast hv1
      refine ⟨c, ?_, hv2 c (getLast?_mem hc)⟩
      simp only [renderTail, List.append_nil, List.getLast?_append, hc]
      rw [show (':' :: v) = [':'] ++ v from rfl, List.getLast?_append, hc]
      rfl
    | some e =>
      obtain ⟨he1, he2⟩ := hve e rfl
      obtain ⟨c, hc⟩ := exists_getLast he1
      refine ⟨c, ?_, he2 c (getLast?_mem hc)⟩
      have ht : renderTail (some v) (some e) = [':'] ++ (v ++ (['-'] ++ e)) := by
        simp [renderTail]
      simp only [ht, List.getLast?_append, hc]
      rfl

/-- A rendered reference body `book ++ " " ++ ch ++ tail` is already
stripped, provided the book is nonempty and starts with a non-whitespace
character. -/
lemma strip_render {book ch : Str} {vs ve : Option Str}
    (hbne : book ≠ [])
    (hbh : ∀ c, book.head? = some c → isWSp c = false)
    (hc1 : ch ≠ []) (hc2 : ∀ c ∈ ch, isDig c = true)
    (hvs : DigOpt vs) (hve : DigOpt ve) :
    strip (book ++ ' ' :: (ch ++ renderTail vs ve)) =
      book ++ ' ' :: (ch ++ renderTail vs ve) := by
  obtain ⟨cl, hcl, hcld⟩ := body_getLast_dig hc1 hc2 hvs hve
  refine strip_eq_self ?_ ?_
  · intro c hc
    cases book with
    | nil => exact absurd rfl hbne
    | cons b0 bt =>
      rw [List.cons_append, List.head?_cons, Option.some.injEq] at hc
      subst hc
      exact hbh b0 (by simp)
  · intro c hc
    rw [List.getLast?_append,
      show (' ' :: (ch ++ renderTail vs ve) : Str) =
        [' '] ++ (ch ++ renderTail vs ve) from rfl,
      List.getLast?_append, hcl] at hc
    simp only [Option.or] at hc
    injection hc with hc
    subst hc
    exact isDig_not_wsp hcld


lemma matchNumbered_inv {mc : Str} {d : Char} {bname ch : Str} {vs ve : Option Str}
    (h : matchNumbered mc = some (d, bname, ch, vs, ve)) :
    (∃ rest, mc = d :: rest) ∧ (d == '1' || d == '2' || d == '3') = true ∧
      bname ≠ [] ∧ (∀ c ∈ bname, isAZ c = true) ∧
      ch ≠ [] ∧ (∀ c ∈ ch, isDig c = true) ∧ DigOpt vs ∧ DigOpt ve := by
  cases mc with
  | nil => simp [matchNumbered] at h
  | cons d0 rest0 =>
    simp only [matchNumbered] at h
    split at h
    · rename_i hd
      split at h
      · rename_i bn r2 heq1
        obtain ⟨-, hb1, hb2, -⟩ := span1_inv heq1
        split at h
        · rename_i sp r3 heq2
          split at h
          · rename_i ch0 r4 heq3
            obtain ⟨-, hc1, hc2, -⟩ := span1_inv heq3
            split at h
            · rename_i vs0 ve0 heq4
              obtain ⟨hvs, hve⟩ := matchTail_inv heq4
              injection h with h
              injection h with h1 h
              injection h with h2 h
              injection h with h3 h
              injection h with h4 h5
              subst h1; subst h2; subst h3; subst h4; subst h5
              exact ⟨⟨rest0, rfl⟩, hd, hb1, hb2, hc1, hc2, hvs, hve⟩
            · simp at h
          · simp at h
        · simp at h
      · simp at h
    · simp at h

/-- Re-parsing a reference rendered by the numbered-book branch. -/
lemma reparse_numbered {d : Char} {bname ch : Str} {vs ve : Option Str}
    (hd : (d == '1' || d == '2' || d == '3') = true)
    (hb1 : bname ≠ []) (hb2 : ∀ c ∈ bname, isAZ c = true)
    (hc1 : ch ≠ []) (hc2 : ∀ c ∈ ch, isDig c = true)
    (hvs : DigOpt vs) (hve : DigOpt ve)
    (hvalid : isValidBook (d :: ' ' :: bname) = true) :
    extractVerseReference (renderRef (d :: ' ' :: bname) ch vs ve) =
      some (renderRef (d :: ' ' :: bname) ch vs ve) := by
  have hr : renderRef (d :: ' ' :: bname) ch vs ve =
      (d :: ' ' :: bname) ++ ' ' :: (ch ++ renderTail vs ve) := by
    simp [renderRef]
  have hstrip : strip ((d :: ' ' :: bname) ++ ' ' :: (ch ++ renderTail vs ve)) =
      (d :: ' ' :: bname) ++ ' ' :: (ch ++ renderTail vs ve) := by
    refine strip_render (by simp) ?_ hc1 hc2 hvs hve
    intro c hc
    simp only [List.head?_cons, Option.some.injEq] at hc
    subst hc
    exact d123_not_wsp hd
  have hcons : (d :: ' ' :: bname) ++ ' ' :: (ch ++ renderTail vs ve) =
      d :: ' ' :: (bname ++ ' ' :: (ch ++ renderTail vs ve)) := by
    simp
  have hnum : matchNumbered (d :: ' ' :: (bname ++ ' ' :: (ch ++ renderTail vs ve))) =
      some (d, bname, ch, vs, veAdj vs ve) := by
    obtain ⟨b0, bt, rfl⟩ : ∃ b0 bt, bname = b0 :: bt := by
      cases bname with
      | nil => exact absurd rfl hb1
      | cons b0 bt => exact ⟨b0, bt, rfl⟩
    obtain ⟨c0, ct, rfl⟩ : ∃ c0 ct, ch = c0 :: ct := by
      cases ch with
      | nil => exact absurd rfl hc1
      | cons c0 ct => exact ⟨c0, ct, rfl⟩
    have hb0 : isAZ b0 = true := hb2 b0 (by simp)
    have hc0 : isDig c0 = true := hc2 c0 (by simp)
    have hdw : (' ' :: ((b0 :: bt) ++ ' ' :: ((c0 :: ct) ++ renderTail vs ve))).dropWhile isWSp =
        (b0 :: bt) ++ ' ' :: ((c0 :: ct) ++ renderTail vs ve) := by
      rw [List.dropWhile_cons_of_pos (by decide)]
      refine dropWhile_eq_self_of_head ?_
      intro c hc
      simp only [List.cons_append, List.head?_cons, Option.some.injEq] at hc
      subst hc
      exact isAZ_not_wsp hb0
    have hs1 : span1 isAZ ((b0 :: bt) ++ ' ' :: ((c0 :: ct) ++ renderTail vs ve)) =
        some (b0 :: bt, ' ' :: ((c0 :: ct) ++ renderTail vs ve)) := by
      refine span1_app (by simp) hb2 ?_
      intro c hc
      simp only [List.head?_cons, Option.some.injEq] at hc
      subst hc
      decide
    have hs2 : span1 isWSp (' ' :: ((c0 :: ct) ++ renderTail vs ve)) =
        some ([' '], (c0 :: ct) ++ renderTail vs ve) := by
      have := span1_app (p := isWSp) (t := [' '])
        (r := (c0 :: ct) ++ renderTail vs ve) (by simp) (by decide) ?_
      · simpa using this
      · intro c hc
        simp only [List.cons_append, List.head?_cons, Option.some.injEq] at hc
        subst hc
        exact isDig_not_wsp hc0
    have hs3 : span1 isDig ((c0 :: ct) ++ renderTail vs ve) =
        some (c0 :: ct, renderTail vs ve) := by
      refine span1_app (by simp) hc2 ?_
      intro c hc
      have := renderTail_head_colon hc
      subst this
      decide
    simp only [matchNumbered, hd, if_true, hdw, hs1, hs2, hs3,
      matchTail_render hvs hve]
  have hstrip2 : strip (d :: ' ' :: (bname ++ ' ' :: (ch ++ renderTail vs ve))) =
      d :: ' ' :: (bname ++ ' ' :: (ch ++ renderTail vs ve)) := by
    rw [← hcons]; exact hstrip
  rw [hr]
  unfold extractVerseReference
  simp only [hcons, hstrip2, hnum, hvalid, if_true]
  have hre : renderRef (d :: ' ' :: bname) ch vs (veAdj vs ve) =
      renderRef (d :: ' ' :: bname) ch vs ve := by
    simp [renderRef, renderTail_veAdj]
  rw [hre, hr, hcons]



lemma wsp_not_az {c : Char} (h : isWSp c = true) : isAZ c = false := by
  cases haz : isAZ c
  · rfl
  · rw [isAZ_not_wsp haz] at h; exact absurd h Bool.false_ne_true

lemma matchRegular_inv {mc : Str} {bname ch : Str} {vs ve : Option Str}
    (h : matchRegular mc = some (bname, ch, vs, ve)) :
    bname ≠ [] ∧ (∀ c ∈ bname, isAZ c = true) ∧
      ch ≠ [] ∧ (∀ c ∈ ch, isDig c = true) ∧ DigOpt vs ∧ DigOpt ve := by
  unfold matchRegular at h
  split at h
  · rename_i bn r1 heq1
    obtain ⟨-, hb1, hb2, -⟩ := span1_inv heq1
    split at h
    · rename_i sp r2 heq2
      split at h
      · rename_i ch0 r3 heq3
        obtain ⟨-, hc1, hc2, -⟩ := span1_inv heq3
        split at h
        · rename_i vs0 ve0 heq4
          obtain ⟨hvs, hve⟩ := matchTail_inv heq4
          injection h with h
          injection h with h1 h
          injection h with h2 h
          injection h with h3 h4
          subst h1; subst h2; subst h3; subst h4
          exact ⟨hb1, hb2, hc1, hc2, hvs, hve⟩
        · simp at h
      · simp at h
    · simp at h
  · simp at h

/-- The single-word matchers both fail on input starting with a digit `1`-`3`. -/
lemma tryMultiRegular_digit {d : Char} {rest : Str}
    (hd : (d == '1' || d == '2' || d == '3') = true) :
    tryMultiRegular (d :: rest) = none := by
  have hspan : span1 isAZ (d :: rest) = none := by
    simp [span1, List.takeWhile_cons, d123_not_az hd]
  simp only [tryMultiRegular, matchMulti, matchRegular, hspan]

/-- Re-parsing a reference rendered by the regular-book branch. -/
lemma reparse_regular {bname ch : Str} {vs ve : Option Str}
    (hb1 : bname ≠ []) (hb2 : ∀ c ∈ bname, isAZ c = true)
    (hc1 : ch ≠ []) (hc2 : ∀ c ∈ ch, isDig c = true)
    (hvs : DigOpt vs) (hve : DigOpt ve)
    (hvalid : isValidBook bname = true) :
    extractVerseReference (renderRef bname ch vs ve) =
      some (renderRef bname ch vs ve) := by
  obtain ⟨b0, bt, rfl⟩ : ∃ b0 bt, bname = b0 :: bt := by
    cases bname with
    | nil => exact absurd rfl hb1
    | cons b0 bt => exact ⟨b0, bt, rfl⟩
  obtain ⟨c0, ct, rfl⟩ : ∃ c0 ct, ch = c0 :: ct := by
    cases ch with
    | nil => exact absurd rfl hc1
    | cons c0 ct => exact ⟨c0, ct, rfl⟩
  have hb0 : isAZ b0 = true := hb2 b0 (by simp)
  have hc0 : isDig c0 = true := hc2 c0 (by simp)
  have hr : renderRef (b0 :: bt) (c0 :: ct) vs ve =
      (b0 :: bt) ++ ' ' :: ((c0 :: ct) ++ renderTail vs ve) := by
    simp [renderRef]
  have hstrip : strip ((b0 :: bt) ++ ' ' :: ((c0 :: ct) ++ renderTail vs ve)) =
      (b0 :: bt) ++ ' ' :: ((c0 :: ct) ++ renderTail vs ve) := by
    refine strip_render (by simp) ?_ (by simp) hc2 hvs hve
    intro c hc
    simp only [List.head?_cons, Option.some.injEq] at hc
    subst hc
    exact isAZ_not_wsp hb0
  have hs1 : span1 isAZ ((b0 :: bt) ++ ' ' :: ((c0 :: ct) ++ renderTail vs ve)) =
      some (b0 :: bt, ' ' :: ((c0 :: ct) ++ renderTail vs ve)) := by
    refine span1_app (by simp) hb2 ?_
    intro c hc
    simp only [List.head?_cons, Option.some.injEq] at hc
    subst hc
    decide
  have hs2 : span1 isWSp (' ' :: ((c0 :: ct) ++ renderTail vs ve)) =
      some ([' '], (c0 :: ct) ++ renderTail vs ve) := by
    have := span1_app (p := isWSp) (t := [' '])
      (r := (c0 :: ct) ++ renderTail vs ve) (by simp) (by decide) ?_
    · simpa using this
    · intro c hc
      simp only [List.cons_append, List.head?_cons, Option.some.injEq] at hc
      subst hc
      exact isDig_not_wsp hc0
  have hs3 : span1 isDig ((c0 :: ct) ++ renderTail vs ve) =
      some (c0 :: ct, renderTail vs ve) := by
    refine span1_app (by simp) hc2 ?_
    intro c hc
    have := renderTail_head_colon hc
    subst this
    decide
  have hnumbered :
      matchNumbered ((b0 :: bt) ++ ' ' :: ((c0 :: ct) ++ renderTail vs ve)) = none := by
    rw [List.cons_append]
    simp only [matchNumbered, isAZ_not_123 hb0, Bool.false_eq_true, if_false]
  have hmulti :
      matchMulti ((b0 :: bt) ++ ' ' :: ((c0 :: ct) ++ renderTail vs ve)) = none := by
    simp only [matchMulti, hs1]
    cases hsong : lower (b0 :: bt) == str "song"
    · simp
    · simp only [if_true]
      have hz : span1 isAZ ((c0 :: ct) ++ renderTail vs ve) = none := by
        simp [span1, List.cons_append, List.takeWhile_cons, isDig_not_az hc0]
      simp only [hs2, hz]
  have hregular :
      matchRegular ((b0 :: bt) ++ ' ' :: ((c0 :: ct) ++ renderTail vs ve)) =
        some (b0 :: bt, c0 :: ct, vs, veAdj vs ve) := by
    simp only [matchRegular, hs1, hs2, hs3, matchTail_render hvs hve]
  rw [hr]
  unfold extractVerseReference
  simp only [hstrip, hnumbered, tryMultiRegular, hmulti, hregular, hvalid, if_true]
  have hre : renderRef (b0 :: bt) (c0 :: ct) vs (veAdj vs ve) =
      renderRef (b0 :: bt) (c0 :: ct) vs ve := by
    simp [renderRef, renderTail_veAdj]
  rw [hre, hr]



lemma matchMulti_inv {mc book ch : Str} {vs ve : Option Str}
    (h : matchMulti mc = some (book, ch, vs, ve)) :
    ∃ w1 s1 w2 s2 w3,
      book = w1 ++ s1 ++ w2 ++ s2 ++ w3 ∧
      w1 ≠ [] ∧ (∀ c ∈ w1, isAZ c = true) ∧ (lower w1 == str "song") = true ∧
      s1 ≠ [] ∧ (∀ c ∈ s1, isWSp c = true) ∧
      w2 ≠ [] ∧ (∀ c ∈ w2, isAZ c = true) ∧ (lower w2 == str "of") = true ∧
      s2 ≠ [] ∧ (∀ c ∈ s2, isWSp c = true) ∧
      w3 ≠ [] ∧ (∀ c ∈ w3, isAZ c = true) ∧ (lower w3 == str "solomon") = true ∧
      ch ≠ [] ∧ (∀ c ∈ ch, isDig c = true) ∧ DigOpt vs ∧ DigOpt ve := by
  unfold matchMulti at h
  split at h
  · rename_i w1 r1 heq1
    obtain ⟨-, h11, h12, -⟩ := span1_inv heq1
    split at h
    · rename_i hsong
      split at h
      · rename_i s1 r2 heq2
        obtain ⟨-, h21, h22, -⟩ := span1_inv heq2
        split at h
        · rename_i w2 r3 heq3
          obtain ⟨-, h31, h32, -⟩ := span1_inv heq3
          split at h
          · rename_i hof
            split at h
            · rename_i s2 r4 heq4
              obtain ⟨-, h41, h42, -⟩ := span1_inv heq4
              split at h
              · rename_i w3 r5 heq5
                obtain ⟨-, h51, h52, -⟩ := span1_inv heq5
                split at h
                · rename_i hsol
                  split at h
                  · rename_i s3 r6 heq6
                    split at h
                    · rename_i ch0 r7 heq7
                      obtain ⟨-, h71, h72, -⟩ := span1_inv heq7
                      split at h
                      · rename_i vs0 ve0 heq8
                        obtain ⟨hvs, hve⟩ := matchTail_inv heq8
                        injection h with h
                        injection h with h1 h
                        injection h with h2 h
                        injection h with h3 h4
                        subst h1; subst h2; subst h3; subst h4
                        exact ⟨w1, s1, w2, s2, w3, rfl, h11, h12, hsong,
                          h21, h22, h31, h32, hof, h41, h42, h51, h52, hsol,
                          h71, h72, hvs, hve⟩
                      · simp at h
                    · simp at h
                  · simp at h
                · simp at h
              · simp at h
            · simp at h
          · simp at h
        · simp at h
      · simp at h
    · simp at h
  · simp at h



/-- Re-parsing a reference rendered by the multi-word book branch. -/
lemma reparse_multi {w1 s1 w2 s2 w3 ch : Str} {vs ve : Option Str}
    (hw1a : ∀ c ∈ w1, isAZ c = true) (hw1s : (lower w1 == str "song") = true)
    (hs1n : s1 ≠ []) (hs1w : ∀ c ∈ s1, isWSp c = true)
    (hw2n : w2 ≠ []) (hw2a : ∀ c ∈ w2, isAZ c = true)
    (hw2s : (lower w2 == str "of") = true)
    (hs2n : s2 ≠ []) (hs2w : ∀ c ∈ s2, isWSp c = true)
    (hw3n : w3 ≠ []) (hw3a : ∀ c ∈ w3, isAZ c = true)
    (hw3s : (lower w3 == str "solomon") = true)
    (hc1 : ch ≠ []) (hc2 : ∀ c ∈ ch, isDig c = true)
    (hvs : DigOpt vs) (hve : DigOpt ve) :
    extractVerseReference (renderRef (w1 ++ s1 ++ w2 ++ s2 ++ w3) ch vs ve) =
      some (renderRef (w1 ++ s1 ++ w2 ++ s2 ++ w3) ch vs ve) := by
  have hw1n : w1 ≠ [] := by
    intro hnil
    rw [hnil] at hw1s
    simp [lower, str] at hw1s
  obtain ⟨a1, t1, hw1e⟩ : ∃ a t, w1 = a :: t := by
    cases w1 with
    | nil => exact absurd rfl hw1n
    | cons a t => exact ⟨a, t, rfl⟩
  obtain ⟨b1, u1, hs1e⟩ : ∃ a t, s1 = a :: t := by
    cases s1 with
    | nil => exact absurd rfl hs1n
    | cons a t => exact ⟨a, t, rfl⟩
  obtain ⟨a2, t2, hw2e⟩ : ∃ a t, w2 = a :: t := by
    cases w2 with
    | nil => exact absurd rfl hw2n
    | cons a t => exact ⟨a, t, rfl⟩
  obtain ⟨b2, u2, hs2e⟩ : ∃ a t, s2 = a :: t := by
    cases s2 with
    | nil => exact absurd rfl hs2n
    | cons a t => exact ⟨a, t, rfl⟩
  obtain ⟨a3, t3, hw3e⟩ : ∃ a t, w3 = a :: t := by
    cases w3 with
    | nil => exact absurd rfl hw3n
    | cons a t => exact ⟨a, t, rfl⟩
  obtain ⟨c0, ct, hche⟩ : ∃ a t, ch = a :: t := by
    cases ch with
    | nil => exact absurd rfl hc1
    | cons a t => exact ⟨a, t, rfl⟩
  have ha1 : isAZ a1 = true := hw1a a1 (by rw [hw1e]; simp)
  have hb1 : isWSp b1 = true := hs1w b1 (by rw [hs1e]; simp)
  have ha2 : isAZ a2 = true := hw2a a2 (by rw [hw2e]; simp)
  have hb2 : isWSp b2 = true := hs2w b2 (by rw [hs2e]; simp)
  have ha3 : isAZ a3 = true := hw3a a3 (by rw [hw3e]; simp)
  have hc0 : isDig c0 = true := hc2 c0 (by rw [hche]; simp)
  have hr : renderRef (w1 ++ s1 ++ w2 ++ s2 ++ w3) ch vs ve =
      (w1 ++ s1 ++ w2 ++ s2 ++ w3) ++ ' ' :: (ch ++ renderTail vs ve) := by
    simp [renderRef]
  have hstrip : strip ((w1 ++ s1 ++ w2 ++ s2 ++ w3) ++ ' ' :: (ch ++ renderTail vs ve)) =
      (w1 ++ s1 ++ w2 ++ s2 ++ w3) ++ ' ' :: (ch ++ renderTail vs ve) := by
    refine strip_render (by simp [hw1e]) ?_ hc1 hc2 hvs hve
    intro c hc
    rw [hw1e] at hc
    simp only [List.cons_append, List.append_assoc, List.head?_cons,
      Option.some.injEq] at hc
    subst hc
    exact isAZ_not_wsp ha1
  have hs1span : span1 isAZ (w1 ++ (s1 ++ (w2 ++ (s2 ++ (w3 ++ ' ' :: (ch ++ renderTail vs ve)))))) =
      some (w1, s1 ++ (w2 ++ (s2 ++ (w3 ++ ' ' :: (ch ++ renderTail vs ve))))) := by
    refine span1_app hw1n hw1a ?_
    intro c hc
    rw [hs1e] at hc
    simp only [List.cons_append, List.head?_cons, Option.some.injEq] at hc
    subst hc
    exact wsp_not_az hb1
  have hs2span : span1 isWSp (s1 ++ (w2 ++ (s2 ++ (w3 ++ ' ' :: (ch ++ renderTail vs ve))))) =
      some (s1, w2 ++ (s2 ++ (w3 ++ ' ' :: (ch ++ renderTail vs ve)))) := by
    refine span1_app hs1n hs1w ?_
    intro c hc
    rw [hw2e] at hc
    simp only [List.cons_append, List.head?_cons, Option.some.injEq] at hc
    subst hc
    exact isAZ_not_wsp ha2
  have hs3span : span1 isAZ (w2 ++ (s2 ++ (w3 ++ ' ' :: (ch ++ renderTail vs ve)))) =
      some (w2, s2 ++ (w3 ++ ' ' :: (ch ++ renderTail vs ve))) := by
    refine span1_app hw2n hw2a ?_
    intro c hc
    rw [hs2e] at hc
    simp only [List.cons_append, List.head?_cons, Option.some.injEq] at hc
    subst hc
    exact wsp_not_az hb2
  have hs4span : span1 isWSp (s2 ++ (w3 ++ ' ' :: (ch ++ renderTail vs ve))) =
      some (s2, w3 ++ ' ' :: (ch ++ renderTail vs ve)) := by
    refine span1_app hs2n hs2w ?_
    intro c hc
    rw [hw3e] at hc
    simp only [List.cons_append, List.head?_cons, Option.some.injEq] at hc
    subst hc
    exact isAZ_not_wsp ha3
  have hs5span : span1 isAZ (w3 ++ ' ' :: (ch ++ renderTail vs ve)) =
      some (w3, ' ' :: (ch ++ renderTail vs ve)) := by
    refine span1_app hw3n hw3a ?_
    intro c hc
    simp only [List.head?_cons, Option.some.injEq] at hc
    subst hc
    decide
  have hs6span : span1 isWSp (' ' :: (ch ++ renderTail vs ve)) =
      some ([' '], ch ++ renderTail vs ve) := by
    have := span1_app (p := isWSp) (t := [' ']) (r := ch ++ renderTail vs ve)
      (by simp) (by decide) ?_
    · simpa using this
    · intro c hc
      rw [hche] at hc
      simp only [List.cons_append, List.head?_cons, Option.some.injEq] at hc
      subst hc
      exact isDig_not_wsp hc0
  have hs7span : span1 isDig (ch ++ renderTail vs ve) =
      some (ch, renderTail vs ve) := by
    refine span1_app hc1 hc2 ?_
    intro c hc
    have := renderTail_head_colon hc
    subst this
    decide
  have hassoc : (w1 ++ s1 ++ w2 ++ s2 ++ w3) ++ ' ' :: (ch ++ renderTail vs ve) =
      w1 ++ (s1 ++ (w2 ++ (s2 ++ (w3 ++ ' ' :: (ch ++ renderTail vs ve))))) := by
    simp [List.append_assoc]
  have hnum : matchNumbered ((w1 ++ s1 ++ w2 ++ s2 ++ w3) ++ ' ' :: (ch ++ renderTail vs ve)) =
      none := by
    rw [show ((w1 ++ s1 ++ w2 ++ s2 ++ w3) ++ ' ' :: (ch ++ renderTail vs ve) : Str) =
      a1 :: (t1 ++ s1 ++ w2 ++ s2 ++ w3 ++ ' ' :: (ch ++ renderTail vs ve)) from by
        rw [hw1e]; simp [List.append_assoc]]
    simp only [matchNumbered, isAZ_not_123 ha1, Bool.false_eq_true, if_false]
  have hmulti : matchMulti ((w1 ++ s1 ++ w2 ++ s2 ++ w3) ++ ' ' :: (ch ++ renderTail vs ve)) =
      some (w1 ++ s1 ++ w2 ++ s2 ++ w3, ch, vs, veAdj vs ve) := by
    rw [hassoc]
    simp only [matchMulti, hs1span, hw1s, if_true, hs2span, hs3span, hw2s,
      hs4span, hs5span, hw3s, hs6span, hs7span, matchTail_render hvs hve]
  rw [hr]
  unfold extractVerseReference
  simp only [hstrip, hnum, tryMultiRegular, hmulti]
  have hre : renderRef (w1 ++ s1 ++ w2 ++ s2 ++ w3) ch vs (veAdj vs ve) =
      renderRef (w1 ++ s1 ++ w2 ++ s2 ++ w3) ch vs ve := by
    simp [renderRef, renderTail_veAdj]
  rw [hre, hr]



/-- C7: Round-trip — whenever `_extract_verse_reference` succeeds, re-parsing
the rendered `"Book Chapter:Verse[-Verse]"` string it returns yields the same
string again (parse after render is the identity on parser outputs). -/
theorem extract_reference_roundtrip {m r : Str}
    (h : extractVerseReference m = some r) :
    extractVerseReference r = some r := by
  simp only [extractVerseReference] at h
  split at h
  · rename_i d bname ch vs ve heqN
    obtain ⟨⟨rest, hmc⟩, hd, hb1, hb2, hc1, hc2, hvs, hve⟩ := matchNumbered_inv heqN
    split at h
    · rename_i hvalid
      injection h with h
      subst h
      exact reparse_numbered hd hb1 hb2 hc1 hc2 hvs hve hvalid
    · rw [hmc, tryMultiRegular_digit hd] at h
      exact absurd h (by simp)
  · rename_i heqN
    unfold tryMultiRegular at h
    split at h
    · rename_i book ch vs ve heqM
      obtain ⟨w1, s1, w2, s2, w3, hbook, hw1n, hw1a, hw1s, hs1n, hs1w,
        hw2n, hw2a, hw2s, hs2n, hs2w, hw3n, hw3a, hw3s, hc1, hc2, hvs, hve⟩ :=
        matchMulti_inv heqM
      injection h with h
      subst h
      rw [hbook]
      exact reparse_multi hw1a hw1s hs1n hs1w hw2n hw2a hw2s hs2n hs2w
        hw3n hw3a hw3s hc1 hc2 hvs hve
    · rename_i heqM
      split at h
      · rename_i bname ch vs ve heqR
        obtain ⟨hb1, hb2, hc1, hc2, hvs, hve⟩ := matchRegular_inv heqR
        split at h
        · rename_i hvalid
          injection h with h
          subst h
          exact reparse_regular hb1 hb2 hc1 hc2 hvs hve hvalid
        · exact absurd h (by simp)
      · exact absurd h (by simp)

/-- Witness for C7 at a concrete input whose parse output differs from the
input: `"1John 3:16"` parses to `"1 John 3:16"`, which re-parses to itself. -/
theorem extract_reference_roundtrip_witness :
    extractVerseReference (str "1 John 3:16") = some (str "1 John 3:16") :=
  extract_reference_roundtrip (m := str "1John 3:16") (by decide)



/-! ### Lemmas for the topic extractor -/

lemma capAfter_some {rem g : Str} (h : capAfter rem = some g) :
    g ≠ [] ∧ ∀ c, g.head? = some c → isWSp c = false := by
  simp only [capAfter] at h
  split at h
  · rename_i sp r heq
    obtain ⟨-, -, -, hr⟩ := span1_inv heq
    split at h
    · simp at h
    · rename_i hne
      injection h with h
      subst h
      refine ⟨by simpa using hne, ?_⟩
      intro c hc
      cases r with
      | nil => simp at hc
      | cons c0 r0 =>
        rw [List.takeWhile_cons] at hc
        split at hc
        · rw [List.head?_cons, Option.some.injEq] at hc
          rw [← hc]
          exact hr c0 (by simp)
        · simp at hc
  · simp at h

lemma tryAt_some {alts : List Str} {s g : Str} (h : tryAt alts s = some g) :
    g ≠ [] ∧ ∀ c, g.head? = some c → isWSp c = false := by
  unfold tryAt at h
  split at h
  · exact capAfter_some h
  · simp at h

lemma searchCap_some {alts : List Str} {s g : Str}
    (h : searchCap alts s = some g) :
    g ≠ [] ∧ ∀ c, g.head? = some c → isWSp c = false := by
  induction s with
  | nil => simp [searchCap] at h
  | cons c s ih =>
    unfold searchCap at h
    split at h
    · rename_i g0 heq
      injection h with h
      subst h
      exact tryAt_some heq
    · exact ih h

lemma tryTopicPatterns_some {pats : List (List Str)} {s g : Str}
    (h : tryTopicPatterns pats s = some g) :
    g ≠ [] ∧ ∀ c, g.head? = some c → isWSp c = false := by
  induction pats with
  | nil => simp [tryTopicPatterns] at h
  | cons alts ps ih =>
    unfold tryTopicPatterns at h
    split at h
    · rename_i g0 heq
      injection h with h
      subst h
      exact searchCap_some heq
    · exact ih h

lemma dropWhile_eq_nil_all {p : Char → Bool} {l : Str}
    (h : l.dropWhile p = []) : ∀ c ∈ l, p c = true := by
  induction l with
  | nil => simp
  | cons a t ih =>
    rw [List.dropWhile_cons] at h
    intro c hc
    cases hpa : p a
    · rw [hpa] at h; simp at h
    · rw [hpa] at h
      simp only [if_true] at h
      rcases List.mem_cons.mp hc with rfl | hct
      · exact hpa
      · exact ih h c hct

lemma strip_props {g : Str} (h1 : g ≠ [])
    (h2 : ∀ c, g.head? = some c → isWSp c = false) :
    strip g ≠ [] ∧ ∀ c, (strip g).head? = some c → isWSp c = false := by
  obtain ⟨c0, g0, rfl⟩ : ∃ c0 g0, g = c0 :: g0 := by
    cases g with
    | nil => exact absurd rfl h1
    | cons c0 g0 => exact ⟨c0, g0, rfl⟩
  have hc0 : isWSp c0 = false := h2 c0 rfl
  have htr : ((c0 :: g0).reverse.dropWhile isWSp).reverse <+: (c0 :: g0) := by
    have hsuf : ((c0 :: g0).reverse.dropWhile isWSp).reverse.reverse <:+
        (c0 :: g0).reverse := by
      rw [List.reverse_reverse]; exact List.dropWhile_suffix isWSp
    rw [← List.reverse_prefix] at hsuf
    simpa using hsuf
  have htrne : ((c0 :: g0).reverse.dropWhile isWSp).reverse ≠ [] := by
    intro hnil
    have hnil2 : (c0 :: g0).reverse.dropWhile isWSp = [] := by
      have := congrArg List.reverse hnil
      simpa using this
    have hall := dropWhile_eq_nil_all hnil2
    have := hall c0 (by simp)
    rw [hc0] at this
    exact Bool.false_ne_true this
  obtain ⟨d0, dt, hd⟩ : ∃ d0 dt,
      ((c0 :: g0).reverse.dropWhile isWSp).reverse = d0 :: dt := by
    cases hX : ((c0 :: g0).reverse.dropWhile isWSp).reverse with
    | nil => exact absurd hX htrne
    | cons d0 dt => exact ⟨d0, dt, rfl⟩
  have hd0 : d0 = c0 := by
    obtain ⟨t, ht⟩ := htr
    rw [hd, List.cons_append] at ht
    have := congrArg List.head? ht
    simpa using this
  have hwsd0 : isWSp d0 = false := by rw [hd0]; exact hc0
  have hfinal : strip (c0 :: g0) = d0 :: dt := by
    unfold strip
    rw [hd]
    exact dropWhile_eq_self_of_head (by
      intro c hc
      rw [List.head?_cons, Option.some.injEq] at hc
      subst hc
      exact hwsd0)
  rw [hfinal]
  exact ⟨by simp, by
    intro c hc
    rw [List.head?_cons, Option.some.injEq] at hc
    subst hc
    exact hwsd0⟩

lemma subTrailingAlt_ne_nil {alts : List Str} {t : Str} (h1 : t ≠ [])
    (h2 : ∀ c, t.head? = some c → isWSp c = false) :
    subTrailingAlt alts t ≠ [] := by
  obtain ⟨c0, t0, rfl⟩ : ∃ c0 t0, t = c0 :: t0 := by
    cases t with
    | nil => exact absurd rfl h1
    | cons c0 t0 => exact ⟨c0, t0, rfl⟩
  have hc0 : isWSp c0 = false := h2 c0 rfl
  unfold subTrailingAlt
  split
  · rename_i w hw
    have hp := List.find?_some hw
    simp only [Bool.and_eq_true] at hp
    obtain ⟨-, htake⟩ := hp
    have hXne : (c0 :: t0).take ((c0 :: t0).length - w.length) ≠ [] := by
      intro hnil
      rw [hnil] at htake
      simp at htake
    obtain ⟨k, hk⟩ : ∃ k, (c0 :: t0).length - w.length = k + 1 := by
      cases h0 : (c0 :: t0).length - w.length with
      | zero =>
        rw [h0] at hXne
        simp at hXne
      | succ k => exact ⟨k, rfl⟩
    have hXc : (c0 :: t0).take ((c0 :: t0).length - w.length) =
        c0 :: t0.take k := by
      rw [hk]
      rfl
    intro hnil
    unfold dropTrailWS at hnil
    have hnil2 : ((c0 :: t0).take ((c0 :: t0).length - w.length)).reverse.dropWhile
        isWSp = [] := by
      have := congrArg List.reverse hnil
      simpa using this
    have hall := dropWhile_eq_nil_all hnil2
    have := hall c0 (by rw [hXc]; simp)
    rw [hc0] at this
    exact Bool.false_ne_true this
  · simp



/-! ### Idempotence of normalisation -/

lemma toNat_ofNat_small {k : Nat} (h1 : 97 ≤ k) (h2 : k ≤ 122) :
    (Char.ofNat k).toNat = k := by
  interval_cases k <;> decide

lemma toLower_toLower (c : Char) : c.toLower.toLower = c.toLower := by
  simp only [Char.toLower]
  split
  · rename_i h
    have ht : (Char.ofNat (c.toNat + 32)).toNat = c.toNat + 32 :=
      toNat_ofNat_small (by omega) (by omega)
    rw [if_neg (by rw [ht]; omega)]
  · rfl

lemma isWSp_toLower (c : Char) : isWSp c.toLower = isWSp c := by
  simp only [Char.toLower]
  split
  · rename_i h
    have ht : (Char.ofNat (c.toNat + 32)).toNat = c.toNat + 32 :=
      toNat_ofNat_small (by omega) (by omega)
    have h1 : isWSp (Char.ofNat (c.toNat + 32)) = false := by
      simp only [isWSp, ht, Bool.or_eq_false_iff, decide_eq_false_iff_not]
      omega
    have h2 : isWSp c = false := by
      simp only [isWSp, Bool.or_eq_false_iff, decide_eq_false_iff_not]
      omega
    rw [h1, h2]
  · rfl

lemma lower_idem (l : Str) : lower (lower l) = lower l := by
  unfold lower
  induction l with
  | nil => rfl
  | cons c t ih =>
    simp only [List.map_cons, toLower_toLower]
    rw [show (List.map Char.toLower (List.map Char.toLower t)) =
      List.map Char.toLower t from ih]

lemma dropWhile_wsp_lower (l : Str) :
    (l.map Char.toLower).dropWhile isWSp = (l.dropWhile isWSp).map Char.toLower := by
  induction l with
  | nil => rfl
  | cons c t ih =>
    simp only [List.map_cons, List.dropWhile_cons, isWSp_toLower]
    cases h : isWSp c
    · simp only [Bool.false_eq_true, if_false, List.map_cons]
    · simp only [if_true, ih]

lemma strip_lower (l : Str) : strip (lower l) = lower (strip l) := by
  unfold strip lower
  rw [← List.map_reverse, dropWhile_wsp_lower, ← List.map_reverse,
    dropWhile_wsp_lower]

lemma strip_idem (l : Str) : strip (strip l) = strip l := by
  apply strip_eq_self
  · intro c hc
    exact head?_dropWhile (p := isWSp)
      (l := (l.reverse.dropWhile isWSp).reverse) hc
  · intro c hc
    have hsuff : strip l <:+ (l.reverse.dropWhile isWSp).reverse :=
      List.dropWhile_suffix isWSp
    obtain ⟨pre, hpre⟩ := hsuff
    have hXlast : ((l.reverse.dropWhile isWSp).reverse).getLast? = some c := by
      rw [← hpre, List.getLast?_append, hc]
      rfl
    rw [List.getLast?_reverse] at hXlast
    exact head?_dropWhile hXlast

lemma normalize_idem (m : Str) : normalize (normalize m) = normalize m := by
  unfold normalize
  rw [strip_lower, strip_idem, ← strip_lower, lower_idem]



/-! ### Lemmas for the keyword extractor fallback -/

lemma mem_insertNew (ks : List Str) (w : Str) : w ∈ insertNew ks w := by
  unfold insertNew
  split
  · rename_i hc
    exact List.elem_iff.mp hc
  · exact List.mem_append_right ks (by simp)

lemma insertNew_mono {ks : List Str} {x : Str} (w : Str) (h : x ∈ ks) :
    x ∈ insertNew ks w := by
  unfold insertNew
  split
  · exact h
  · exact List.mem_append_left _ h

lemma insertAll_mono {ws ks : List Str} {x : Str} (h : x ∈ ks) :
    x ∈ insertAll ks ws := by
  induction ws generalizing ks with
  | nil => exact h
  | cons w ws ih => exact ih (insertNew_mono w h)

lemma kwStep_mono {ks : List Str} {x : Str} (w : Str) (h : x ∈ ks) :
    x ∈ kwStep ks w := by
  unfold kwStep
  split
  · exact h
  · split
    · exact insertAll_mono (insertNew_mono w h)
    · exact insertNew_mono w h

lemma kwStep_self {ks : List Str} {w : Str}
    (h : (stopWords.contains w || w.length < 3) = false) : w ∈ kwStep ks w := by
  unfold kwStep
  rw [h]
  simp only [Bool.false_eq_true, if_false]
  split
  · exact insertAll_mono (mem_insertNew ks w)
  · exact mem_insertNew ks w

lemma foldl_kwStep_mono {ws ks : List Str} {x : Str} (h : x ∈ ks) :
    x ∈ ws.foldl kwStep ks := by
  induction ws generalizing ks with
  | nil => exact h
  | cons w ws ih => exact ih (kwStep_mono w h)

lemma foldl_kwStep_mem {ws ks : List Str} {w : Str} (hw : w ∈ ws)
    (hc : (stopWords.contains w || w.length < 3) = false) :
    w ∈ ws.foldl kwStep ks := by
  induction ws generalizing ks with
  | nil => simp at hw
  | cons a t ih =>
    rw [List.foldl_cons]
    rcases List.mem_cons.mp hw with rfl | hwt
    · exact foldl_kwStep_mono (kwStep_self hc)
    · exact ih hwt

/-- C8 (amended): if the keyword set is empty after the phrase/word/synonym
pass, then every token was a stop word or shorter than three characters, so
the re-add fallback (which filters by the same length bound) is empty too and
the extractor returns the single tag `[normalized text]`. -/
theorem keyword_fallback_amended {t : Str}
    (h : kwStage12 (normalize t) = []) :
    extract t = [normalize t] := by
  have hall : ∀ w ∈ findWords (normalize t),
      (stopWords.contains w || w.length < 3) = true := by
    intro w hw
    cases hc : (stopWords.contains w || w.length < 3)
    · exfalso
      have hmem : w ∈ kwStage12 (normalize t) := by
        unfold kwStage12
        exact foldl_kwStep_mem hw hc
      rw [h] at hmem
      simp at hmem
    · rfl
  have hfilter : (findWords (normalize t)).filter
      (fun w => !stopWords.contains w && 2 < w.length) = [] := by
    rw [List.filter_eq_nil_iff]
    intro w hw
    have := hall w hw
    simp only [Bool.or_eq_true, decide_eq_true_eq] at this
    simp only [Bool.and_eq_true, Bool.not_eq_eq_eq_not, Bool.not_true,
      decide_eq_true_eq, not_and]
    intro hstop
    rcases this with hc | hlen
    · rw [hc] at hstop
      simp at hstop
    · omega
  unfold extract
  simp only [h, List.isEmpty_nil, if_true, hfilter, List.foldl_nil]

/-- C8 (counterexample): on `"ok go"` every token is shorter than three
characters, and the fallback does not re-add the non-stop-word token `"go"`;
the result is the single whole-text tag. -/
theorem keyword_fallback_counterexample :
    extract (str "ok go") = [str "ok go"] ∧
    (extract (str "ok go")).contains (str "go") = false := by
  exact ⟨by decide, by decide⟩

/-- Witness for C8 (amended) at the concrete input `"ok go"`. -/
theorem keyword_fallback_amended_witness :
    extract (str "ok go") = [str "ok go"] :=
  (keyword_fallback_amended (t := str "ok go") (by decide)).trans (by decide)



/-! ### Claim theorems for the intent classifier -/

/-- C1: Classification is total and deterministic — `analyze_intent` is a
total function returning exactly one `Intent` for every string (all the
string and regex operations it uses are total), and when no rule fires it
falls back to `general` carrying the original message. -/
theorem classify_total_deterministic (m : Str) :
    (∃! i : Intent, analyzeIntent m = i) ∧
    (declineTriggers.any (fun p => hasStr p (normalize m)) = false →
     hasStr (str "save all:") (normalize m) = false →
     extractVerseReference m = none →
     greetingPhrases.any (fun g => normalize m == g ||
       startB (g ++ [' ']) (normalize m)) = false →
     (normalize m == str "done" || normalize m == str "finished" ||
       normalize m == str "completed") = false →
     progressPhrases.any (fun p => hasStr p (normalize m)) = false →
     dailyPhrases.any (fun p => hasStr p (normalize m)) = false →
     searchTriggers.any (fun t => hasStr t (normalize m)) = false →
     challengeWords.filter (fun w => hasStr w (normalize m)) = [] →
     isBibleTopic (normalize m) = false →
     looksLikeSearch (normalize m) = false →
     analyzeIntent m = Intent.general m) := by
  constructor
  · exact ⟨analyzeIntent m, rfl, fun y hy => hy.symm⟩
  · intro h1 h2 h3 h4 h5 h6 h7 h8 h9 h10 h11
    unfold analyzeIntent analyzeRest afterBookmark
    simp only [h1, h2, h3, h4, h5, h6, h7, h8, h9, h10, h11,
      Bool.false_eq_true, if_false, List.isEmpty_nil, Bool.not_true]
    rw [ite_self]

/-- Witness for C1 at a message on which no rule fires. -/
theorem classify_total_deterministic_witness :
    analyzeIntent (str "zq zq zq zq zq zq") =
      Intent.general (str "zq zq zq zq zq zq") :=
  (classify_total_deterministic (str "zq zq zq zq zq zq")).2
    (by decide) (by decide) (by decide) (by decide) (by decide) (by decide)
    (by decide) (by decide) (by decide) (by decide) (by decide)

/-- C2 (counterexample): `"Deuteronomy 6:5"` is a structurally valid
whole-message citation, yet the classifier returns `bookmark_no`, because the
decline-trigger check (whose list contains the bare word `"no"`, a substring
of `"deuteronomy"`) runs before the citation check. -/
theorem citation_decline_counterexample :
    extractVerseReference (str "Deuteronomy 6:5") =
      some (str "Deuteronomy 6:5") ∧
    analyzeIntent (str "Deuteronomy 6:5") = Intent.bookmark_no := by
  exact ⟨by decide, by decide⟩

/-- C2 (amended): a structurally valid whole-message citation is classified
`get_verse` with the parsed reference, before the greeting and keyword
checks, provided no decline trigger and no `"save all:"` occurs in the
message.  In particular `classify("John 3:16")` yields `get_verse` with
reference `"John 3:16"` (book John, chapter 3, verse 16, no end verse). -/
theorem citation_wins_amended {m r : Str}
    (h1 : declineTriggers.any (fun p => hasStr p (normalize m)) = false)
    (h2 : hasStr (str "save all:") (normalize m) = false)
    (h3 : extractVerseReference m = some r) :
    analyzeIntent m = Intent.get_verse r := by
  unfold analyzeIntent analyzeRest
  simp only [h1, h2, h3, Bool.false_eq_true, if_false]

/-- Witness for C2 at the spec's own example. -/
theorem citation_wins_amended_witness :
    analyzeIntent (str "John 3:16") = Intent.get_verse (str "John 3:16") :=
  citation_wins_amended (by decide) (by decide) (by decide)

/-- C3 (counterexample): `"remember John 3:16"` contains the action word
`"remember"` and a parseable reference, yet classifies as `search`, not
`bookmark` — the bookmark branch tests only `"save "`/`"bookmark "` and
re-runs the whole-message parser, which already failed. -/
theorem bookmark_words_counterexample :
    extractVerseReference (str "John 3:16") = some (str "John 3:16") ∧
    analyzeIntent (str "remember John 3:16") =
      Intent.search (str "remember john 3:16") ∧
    analyzeIntent (str "remember John 3:16") ≠
      Intent.bookmark (str "John 3:16") := by
  exact ⟨by decide, by decide, by decide⟩

/-- C3 (amended): the `bookmark` intent is unreachable — the branch requires
the whole-message reference parse to succeed, but the earlier `get_verse`
rule already returned in that case, so no message is classified `bookmark`. -/
theorem bookmark_unreachable (m r : Str) :
    analyzeIntent m ≠ Intent.bookmark r := by
  have haux : ∀ x y, afterBookmark x y ≠ Intent.bookmark r := by
    intro x y
    simp only [afterBookmark]
    repeat' split
    all_goals intro hX
    all_goals exact Intent.noConfusion hX
  have haux2 : ∀ x y, analyzeRest x y ≠ Intent.bookmark r := by
    intro x y
    simp only [analyzeRest]
    cases hE : extractVerseReference x with
    | some s =>
      simp only [hE]
      intro hX; exact Intent.noConfusion hX
    | none =>
      simp only [hE]
      split
      · intro hX; exact Intent.noConfusion hX
      · split
        · intro hX; exact Intent.noConfusion hX
        · split
          · exact haux x y
          · exact haux x y
  simp only [analyzeIntent]
  split
  · intro hX; exact Intent.noConfusion hX
  · split
    · split
      · intro hX; exact Intent.noConfusion hX
      · exact haux2 m (normalize m)
    · exact haux2 m (normalize m)

/-- C4: any message whose normalized (lowercased, trimmed) form contains the
two-character substring `"no"` classifies as `bookmark_no`, because the
decline-trigger list contains the bare word `"no"`, triggers are tested by
substring containment, and this test precedes every other rule. -/
theorem no_substring_bookmark_no {m : Str}
    (h : hasStr (str "no") (normalize m) = true) :
    analyzeIntent m = Intent.bookmark_no := by
  have hany : declineTriggers.any (fun p => hasStr p (normalize m)) = true := by
    simp [declineTriggers, h]
  simp [analyzeIntent, hany]

/-- Witness for C4: `"know"` contains `"no"` and classifies as decline. -/
theorem no_substring_bookmark_no_witness :
    analyzeIntent (str "know") = Intent.bookmark_no :=
  no_substring_bookmark_no (by decide)

/-- C5: the numbered-book pattern is tried before the generic single-word
pattern (which does not even match a digit-initial message), so
`"1 John 3:16"` parses with book `"1 John"` and classifies as `get_verse`
with reference `"1 John 3:16"`. -/
theorem numbered_book_priority :
    matchRegular (strip (str "1 John 3:16")) = none ∧
    matchNumbered (strip (str "1 John 3:16")) =
      some ('1', str "John", str "3", some (str "16"), none) ∧
    extractVerseReference (str "1 John 3:16") = some (str "1 John 3:16") ∧
    analyzeIntent (str "1 John 3:16") = Intent.get_verse (str "1 John 3:16") := by
  exact ⟨by decide, by decide, by decide, by decide⟩

/-- C6 (counterexample): in `"save all: garbage, John 3:16"` the segment
`"garbage"` does not parse as a reference, yet it is retained verbatim in the
`bookmark_all` list — segments are not parsed and unparseable ones are not
dropped. -/
theorem save_all_counterexample :
    analyzeIntent (str "save all: garbage, John 3:16") =
      Intent.bookmark_all [str "garbage", str "John 3:16"] ∧
    extractVerseReference (str "garbage") = none := by
  exact ⟨by decide, by decide⟩

/-- C6 (amended): when `"save all:"` occurs (and no decline trigger does),
the text after the first occurrence in the original message is split on
commas and each segment is whitespace-stripped and kept verbatim — no
reference parsing and no dropping happens. -/
theorem save_all_verbatim {m pre post : Str}
    (h1 : declineTriggers.any (fun p => hasStr p (normalize m)) = false)
    (h2 : hasStr (str "save all:") (normalize m) = true)
    (h3 : splitOnce (str "save all:") m = some (pre, post)) :
    analyzeIntent m = Intent.bookmark_all ((splitComma post).map strip) := by
  unfold analyzeIntent
  simp only [h1, h2, h3, Bool.false_eq_true, if_false, if_true]

/-- Witness for C6 at the counterexample input. -/
theorem save_all_verbatim_witness :
    analyzeIntent (str "save all: garbage, John 3:16") =
      Intent.bookmark_all [str "garbage", str "John 3:16"] :=
  (save_all_verbatim (m := str "save all: garbage, John 3:16")
    (by decide) (by decide)
    (by decide : splitOnce (str "save all:") (str "save all: garbage, John 3:16") =
      some (str "", str " garbage, John 3:16"))).trans (by decide)



/-- C9 (counterexample): on the empty string no capture pattern matches, the
residual is empty, and the "original normalized text" returned is itself
empty — so the extractor does return an empty topic for this input. -/
theorem topic_empty_counterexample : extractTopic (str "") = [] := by decide

/-- C9 (amended): when no trigger-capture pattern matches and the
trigger-stripping residual is empty, `_extract_topic` returns the normalized
text unchanged; consequently the topic is nonempty for every input whose
normalized text is nonempty (in particular for `"find"`). -/
theorem topic_fallback (m : Str) :
    (tryTopicPatterns topicPatterns (normalize m) = none →
      topicResidual (normalize m) = [] → extractTopic m = normalize m) ∧
    (normalize m ≠ [] → extractTopic m ≠ []) := by
  constructor
  · intro hp hres
    simp only [extractTopic, hp, hres, List.isEmpty_nil, if_true]
  · intro hne
    simp only [extractTopic]
    cases hp : tryTopicPatterns topicPatterns (normalize m) with
    | some g =>
      simp only [hp]
      obtain ⟨hg1, hg2⟩ := tryTopicPatterns_some hp
      obtain ⟨hs1, hs2⟩ := strip_props hg1 hg2
      exact subTrailingAlt_ne_nil hs1 hs2
    | none =>
      simp only [hp]
      cases hres : (topicResidual (normalize m)).isEmpty
      · simp only [hres, Bool.false_eq_true, if_false]
        intro hnil
        rw [hnil] at hres
        simp at hres
      · simp only [hres, if_true]
        exact hne

/-- Witness for C9 at the spec's example `"find"`. -/
theorem topic_fallback_witness :
    extractTopic (str "find") = str "find" ∧ extractTopic (str "find") ≠ [] := by
  have h := topic_fallback (str "find")
  exact ⟨(h.1 (by decide) (by decide)).trans (by decide), h.2 (by decide)⟩

/-- C10 (counterexample): a message of length exactly 50 containing the known
topic `"love"` that reaches the known-topic rule is NOT classified `search`
(the source requires length strictly below 50), falling through to `general`
because it has more than five words. -/
theorem topic_length_counterexample :
    (normalize (str "love zz zz zz zz zz zz zz zz zz zz zz zz zz zz zzz")).length
      = 50 ∧
    hasStr (str "love")
      (normalize (str "love zz zz zz zz zz zz zz zz zz zz zz zz zz zz zzz"))
      = true ∧
    (str "love") ∈ bibleTopics ∧
    analyzeIntent (str "love zz zz zz zz zz zz zz zz zz zz zz zz zz zz zzz") =
      Intent.general (str "love zz zz zz zz zz zz zz zz zz zz zz zz zz zz zzz") := by
  exact ⟨by decide, by decide, by decide, by decide⟩

/-- C10 (amended): a message that reaches the known-topic rule and is an
exact match to a known topic, or contains one as a substring with total
length strictly less than 50 characters, classifies as `search` with topic
equal to the normalized message. -/
theorem topic_rule_amended {m : Str}
    (h1 : declineTriggers.any (fun p => hasStr p (normalize m)) = false)
    (h2 : hasStr (str "save all:") (normalize m) = false)
    (h3 : extractVerseReference m = none)
    (h4 : greetingPhrases.any (fun g => normalize m == g ||
      startB (g ++ [' ']) (normalize m)) = false)
    (h5 : (normalize m == str "done" || normalize m == str "finished" ||
      normalize m == str "completed") = false)
    (h6 : progressPhrases.any (fun p => hasStr p (normalize m)) = false)
    (h7 : dailyPhrases.any (fun p => hasStr p (normalize m)) = false)
    (h8 : searchTriggers.any (fun t => hasStr t (normalize m)) = false)
    (h9 : challengeWords.filter (fun w => hasStr w (normalize m)) = [])
    (h10 : (bibleTopics.any (fun t => normalize m == t) ||
      bibleTopics.any (fun t => hasStr t (normalize m) &&
        decide ((normalize m).length < 50))) = true) :
    analyzeIntent m = Intent.search (normalize m) := by
  have htopic : isBibleTopic (normalize m) = true := by
    unfold isBibleTopic
    rw [← strip_lower,
      show strip (lower (normalize m)) = normalize (normalize m) from rfl,
      normalize_idem]
    exact h10
  unfold analyzeIntent analyzeRest afterBookmark
  simp only [h1, h2, h3, h4, h5, h6, h7, h8, h9, htopic,
    Bool.false_eq_true, if_false, if_true, List.isEmpty_nil, Bool.not_true]
  rw [ite_self]

/-- Witness for C10 at the exact-topic message `"love"`. -/
theorem topic_rule_amended_witness :
    analyzeIntent (str "love") = Intent.search (str "love") :=
  (topic_rule_amended (m := str "love") (by decide) (by decide) (by decide)
    (by decide) (by decide) (by decide) (by decide) (by decide) (by decide)
    (by decide)).trans (by decide)


end Bot
